import Mathlib

/-!
Shallow embedding of the FBMediaDownloader synchronization core
(rate-limit manager, resilient fetch client, atomic download,
pagination and attachment extraction, and persistent media dedup
tracking), together with theorems settling the specification claims.

JavaScript conventions are modelled explicitly:
an optional string models a value that may be `null`/`undefined`,
and JS truthiness of strings (empty string is falsy) is `jsTruthyStr`;
JS truthiness of the optional numeric database user id (0 is falsy)
is `uidTruthy`.
-/

namespace FBMD

/-- JS truthiness for an optional string: null/undefined and the empty
string are falsy, every other string is truthy. -/
def jsTruthyStr : Option String → Bool
  | none => false
  | some s => !s.isEmpty

/-- JS truthiness for the optional numeric database user id: null and 0
are falsy. -/
def uidTruthy : Option Nat → Bool
  | none => false
  | some n => n != 0

/-! ## Rate Limit Manager (src/scripts/rate_limit_manager.js) -/

/-- A parsed `x-app-usage` header: three usage percentages, as produced
by `parseRateLimitHeader`. -/
structure Usage where
  call_count : Nat
  total_cputime : Nat
  total_time : Nat
  deriving Repr, DecidableEq

/-- The module-level `currentUsage` state of the rate limit manager. -/
structure UsageState where
  call_count : Nat
  total_cputime : Nat
  total_time : Nat
  lastUpdated : Option Nat
  deriving Repr, DecidableEq

/-- Initial `currentUsage` value: all zero, `lastUpdated: null`. -/
def initialUsage : UsageState :=
  { call_count := 0, total_cputime := 0, total_time := 0, lastUpdated := none }

/-- `updateRateLimitUsage(usage)` at time `now`: when a parsed usage
object is present, the state is replaced wholesale by it (spread of
`usage` plus a fresh timestamp); a null argument leaves the state. -/
def updateRateLimitUsage (s : UsageState) (usage : Option Usage) (now : Nat) : UsageState :=
  match usage with
  | some u =>
      { call_count := u.call_count, total_cputime := u.total_cputime,
        total_time := u.total_time, lastUpdated := some now }
  | none => s

/-- Folding `updateRateLimitUsage` over a sequence of recorded headers,
each paired with its observation time. -/
def recordUsageSeq (s : UsageState) (headers : List (Usage × Nat)) : UsageState :=
  headers.foldl (fun st h => updateRateLimitUsage st (some h.1) h.2) s

/-- `getMaxUsagePercent()`: highest of the three current fields. -/
def getMaxUsagePercent (s : UsageState) : Nat :=
  max s.call_count (max s.total_cputime s.total_time)

/-- `THRESHOLDS.LOW` -/
def THRESHOLDS_LOW : Nat := 20
/-- `THRESHOLDS.MEDIUM` -/
def THRESHOLDS_MEDIUM : Nat := 50
/-- `THRESHOLDS.HIGH` -/
def THRESHOLDS_HIGH : Nat := 80
/-- `THRESHOLDS.CRITICAL` -/
def THRESHOLDS_CRITICAL : Nat := 95

/-- `DELAYS.MINIMUM = WAIT_BEFORE_NEXT_FETCH || 500`, parameterised by
the configured `WAIT_BEFORE_NEXT_FETCH` value (0 models a falsy
configuration value, which falls back to 500). -/
def DELAYS_MINIMUM (waitBeforeNextFetch : Nat) : Nat :=
  if waitBeforeNextFetch = 0 then 500 else waitBeforeNextFetch

/-- `DELAYS.MODERATE` -/
def DELAYS_MODERATE : Nat := 2000
/-- `DELAYS.HIGH` -/
def DELAYS_HIGH : Nat := 5000
/-- `DELAYS.CRITICAL` -/
def DELAYS_CRITICAL : Nat := 15000

/-- `calculateSmartDelay()`: tiered mapping from the current maximum
usage percentage to a delay, exactly as the if/else chain in the
source (verbose logging has no effect on the returned value). -/
def calculateSmartDelay (waitBeforeNextFetch : Nat) (s : UsageState) : Nat :=
  let maxUsage := getMaxUsagePercent s
  if maxUsage ≥ THRESHOLDS_CRITICAL then DELAYS_CRITICAL
  else if maxUsage ≥ THRESHOLDS_HIGH then DELAYS_HIGH
  else if maxUsage ≥ THRESHOLDS_MEDIUM then DELAYS_MODERATE
  else if maxUsage ≥ THRESHOLDS_LOW then DELAYS_MINIMUM waitBeforeNextFetch
  else 0

/-! ## Media database (src/scripts/database/media.js)

The `saved_media` table is modelled as a list of rows; the UNIQUE
(user_id, media_id) key is respected by `saveMedia` (INSERT OR IGNORE).
The `DATABASE_ENABLED` configuration flag and the presence of a live
database handle are folded into the single `dbEnabled` parameter. -/

/-- One row of the `saved_media` table. -/
structure MediaRec where
  user_id : Nat
  media_id : String
  is_hd : Bool
  file_path : Option String
  deriving Repr, DecidableEq

/-- The `saved_media` table. -/
abbrev MediaDB := List MediaRec

/-- Row lookup by the (user_id, media_id) unique key, as in the
`SELECT ... WHERE user_id = ? AND media_id = ? LIMIT 1` statements. -/
def findMedia (db : MediaDB) (userId : Nat) (mediaId : String) : Option MediaRec :=
  db.find? (fun r => r.user_id == userId && r.media_id == mediaId)

/-- Result shape of `getMediaStatus`. -/
structure MediaStatus where
  exists_ : Bool
  isHd : Bool
  filePath : Option String
  deriving Repr, DecidableEq

/-- `getMediaStatus(userId, mediaId)`: null when the database is
disabled, otherwise the row's status (or `exists: false`). -/
def getMediaStatus (dbEnabled : Bool) (db : MediaDB) (userId : Nat) (mediaId : String) :
    Option MediaStatus :=
  if !dbEnabled then none
  else
    match findMedia db userId mediaId with
    | none => some { exists_ := false, isHd := false, filePath := none }
    | some r => some { exists_ := true, isHd := r.is_hd, filePath := r.file_path }

/-- JS `mediaStatus?.exists` coerced to a boolean. -/
def statusExists (s : Option MediaStatus) : Bool :=
  match s with
  | none => false
  | some st => st.exists_

/-- JS `mediaStatus?.isHd` coerced to a boolean. -/
def statusIsHd (s : Option MediaStatus) : Bool :=
  match s with
  | none => false
  | some st => st.isHd

/-- `saveMedia(userId, mediaId, isHd, filePath)`:
`INSERT OR IGNORE INTO saved_media ...` — inserts a fresh row, leaves
an existing (user_id, media_id) row untouched. -/
def saveMedia (dbEnabled : Bool) (db : MediaDB) (userId : Nat) (mediaId : String)
    (isHd : Bool) (filePath : Option String) : MediaDB :=
  if !dbEnabled then db
  else
    match findMedia db userId mediaId with
    | some _ => db
    | none =>
        db ++ [{ user_id := userId, media_id := mediaId, is_hd := isHd,
                 file_path := filePath }]

/-- `updateMediaToHD(userId, mediaId, filePath)`:
`UPDATE saved_media SET is_hd = 1 [, file_path = ?] WHERE ...`.
The file path is updated only when a truthy path is supplied. -/
def updateMediaToHD (dbEnabled : Bool) (db : MediaDB) (userId : Nat) (mediaId : String)
    (filePath : Option String) : MediaDB :=
  if !dbEnabled then db
  else
    db.map (fun r =>
      if r.user_id == userId && r.media_id == mediaId then
        { r with is_hd := true,
                 file_path := if jsTruthyStr filePath then filePath else r.file_path }
      else r)

/-- Whether the (userId, mediaId) row exists and has `is_hd = 1`. -/
def isHdRecorded (db : MediaDB) (userId : Nat) (mediaId : String) : Bool :=
  match findMedia db userId mediaId with
  | none => false
  | some r => r.is_hd

/-! ## Download helpers (src/unnamed/part_012, download_helpers.js) -/

/-- Result shape of `checkMediaSkip`. -/
structure SkipCheck where
  skip : Bool
  needsUpgrade : Bool
  mediaStatus : Option MediaStatus
  deriving Repr, DecidableEq

/-- `checkMediaSkip(userId, mediaId, isGetLargestPhoto)`: consult the
persistent store; skip an item that is already downloaded (and HD when
HD is requested); flag an SD item for HD upgrade when HD is requested.
The `reason` string of the source is presentation only and omitted. -/
def checkMediaSkip (dbEnabled : Bool) (db : MediaDB) (userId : Option Nat)
    (mediaId : String) (isGetLargestPhoto : Bool) : SkipCheck :=
  if !dbEnabled || !uidTruthy userId then
    { skip := false, needsUpgrade := false, mediaStatus := none }
  else
    let uid := userId.getD 0
    let mediaStatus := getMediaStatus dbEnabled db uid mediaId
    if !statusExists mediaStatus then
      { skip := false, needsUpgrade := false, mediaStatus := mediaStatus }
    else if isGetLargestPhoto && !statusIsHd mediaStatus then
      { skip := false, needsUpgrade := true, mediaStatus := mediaStatus }
    else
      { skip := true, needsUpgrade := false, mediaStatus := mediaStatus }

/-- Result shape of `attemptHDFetch`. -/
structure HDResult where
  url : Option String
  isHd : Bool
  shouldSkip : Bool
  deriving Repr, DecidableEq

/-- `attemptHDFetch(mediaId, userId, isUpgradeAttempt)`: the outcome of
the one extra `getLargestPhotoLink` metadata request is supplied as
`hdUrl` (null on failure). On failure of an upgrade attempt, signal
skip (keep the SD copy); on failure for a fresh item, proceed with SD. -/
def attemptHDFetch (hdUrl : Option String) (isUpgradeAttempt : Bool) : HDResult :=
  if jsTruthyStr hdUrl then { url := hdUrl, isHd := true, shouldSkip := false }
  else if isUpgradeAttempt then { url := none, isHd := false, shouldSkip := true }
  else { url := none, isHd := false, shouldSkip := false }

/-- `saveMediaWithTracking(userId, mediaId, isHd, savePath, wasUpgrade)`:
insert a fresh record, upgrade an existing record only when this
attempt actually produced HD, and otherwise leave it untouched.
(The `wasUpgrade` argument is unused by the source body.) -/
def saveMediaWithTracking (dbEnabled : Bool) (db : MediaDB) (userId : Option Nat)
    (mediaId : String) (isHd : Bool) (savePath : String) (wasUpgrade : Bool) : MediaDB :=
  if !dbEnabled || !uidTruthy userId then db
  else
    let uid := userId.getD 0
    let existingStatus := getMediaStatus dbEnabled db uid mediaId
    if statusExists existingStatus then
      if isHd then updateMediaToHD dbEnabled db uid mediaId (some savePath) else db
    else
      saveMedia dbEnabled db uid mediaId isHd (some savePath)

/-- An abstract store operation, for stating invariants over arbitrary
sequences of runs (every persistent mutation of `saved_media` performed
by the core goes through one of these three functions). -/
inductive MediaOp where
  | save (u : Nat) (m : String) (hd : Bool) (p : Option String)
  | updateHD (u : Nat) (m : String) (p : Option String)
  | saveTracking (u : Option Nat) (m : String) (hd : Bool) (p : String) (w : Bool)
  deriving Repr, DecidableEq

/-- Apply one store operation. -/
def applyMediaOp (dbEnabled : Bool) (db : MediaDB) : MediaOp → MediaDB
  | .save u m hd p => saveMedia dbEnabled db u m hd p
  | .updateHD u m p => updateMediaToHD dbEnabled db u m p
  | .saveTracking u m hd p w => saveMediaWithTracking dbEnabled db u m hd p w

/-- Apply a sequence of store operations. -/
def applyMediaOps (dbEnabled : Bool) (db : MediaDB) (ops : List MediaOp) : MediaDB :=
  ops.foldl (applyMediaOp dbEnabled) db

/-! ## Per-item sync step (download_album.js / download_wall_media.js)

The body of the per-item loop of `downloadAlbumPhoto` and of
`downloadWallMedia`, for one media item. The two effectful collaborators
are supplied as an environment: the result of the HD metadata fetch
(`getLargestPhotoLink`, null on failure) and whether `download`
succeeds. The returned list records the source URLs for which a file
download was attempted. -/

/-- Outcome of processing one item. -/
inductive ItemOutcome where
  /-- counted in the saved counter -/
  | savedItem
  /-- counted in the skipped counter -/
  | skippedItem
  /-- download threw; caught and logged, nothing recorded -/
  | errorItem
  /-- video dropped because `includeVideo` is false (wall path only) -/
  | excludedItem
  deriving Repr, DecidableEq

/-- Environment of one item: the HD link lookup result and whether the
file transfer succeeds. -/
structure ItemEnv where
  hdLink : Option String
  downloadOk : Bool
  deriving Repr, DecidableEq

/-- One iteration of the `for (let data of pageImgsData)` loop of
`downloadAlbumPhoto`: dedup check, optional HD fetch/upgrade logic,
download, and `saveMediaWithTracking` on success. -/
def processAlbumItem (dbEnabled : Bool) (userId : Option Nat) (env : ItemEnv)
    (db : MediaDB) (photoId photoUrl savePath : String) (isGetLargestPhoto : Bool) :
    MediaDB × ItemOutcome × List String :=
  let skipCheck := checkMediaSkip dbEnabled db userId photoId isGetLargestPhoto
  if skipCheck.skip then (db, .skippedItem, [])
  else
    let hdStage : Option (String × Bool) :=
      if isGetLargestPhoto then
        let hdResult := attemptHDFetch env.hdLink skipCheck.needsUpgrade
        if hdResult.shouldSkip then none
        else if jsTruthyStr hdResult.url then some (hdResult.url.getD photoUrl, true)
        else some (photoUrl, false)
      else some (photoUrl, false)
    match hdStage with
    | none => (db, .skippedItem, [])
    | some (url, isHdDownload) =>
        if env.downloadOk then
          let db2 := saveMediaWithTracking dbEnabled db userId photoId isHdDownload
            savePath skipCheck.needsUpgrade
          (db2, .savedItem, [url])
        else (db, .errorItem, [url])

/-- `MEDIA_TYPE.PHOTO` -/
def MEDIA_TYPE_PHOTO : String := "photo"
/-- `MEDIA_TYPE.VIDEO` -/
def MEDIA_TYPE_VIDEO : String := "video"

/-- One extracted media item `{type, id, url}`. -/
structure MediaItem where
  mtype : String
  id : String
  url : String
  deriving Repr, DecidableEq

/-- One iteration of the `for (let data of media)` loop of
`downloadWallMedia`: inline dedup/upgrade check, optional HD fetch for
photos, video exclusion, download, and inline record tracking. -/
def processWallItem (dbEnabled : Bool) (userId : Option Nat) (env : ItemEnv)
    (db : MediaDB) (item : MediaItem) (savePath : String)
    (includeVideo isGetLargestPhoto : Bool) :
    MediaDB × ItemOutcome × List String :=
  let uid := userId.getD 0
  let skipNow : Bool :=
    if dbEnabled && uidTruthy userId then
      let mediaStatus := getMediaStatus dbEnabled db uid item.id
      if statusExists mediaStatus then
        if item.mtype == MEDIA_TYPE_PHOTO && isGetLargestPhoto && !statusIsHd mediaStatus
        then false
        else true
      else false
    else false
  if skipNow then (db, .skippedItem, [])
  else
    let hdStage : Option (String × Bool) :=
      if isGetLargestPhoto && item.mtype == MEDIA_TYPE_PHOTO then
        let existingStatus :=
          if dbEnabled && uidTruthy userId then getMediaStatus dbEnabled db uid item.id
          else none
        let isUpgradeAttempt := statusExists existingStatus && !statusIsHd existingStatus
        if jsTruthyStr env.hdLink then some (env.hdLink.getD item.url, true)
        else if isUpgradeAttempt then none
        else some (item.url, false)
      else some (item.url, false)
    match hdStage with
    | none => (db, .skippedItem, [])
    | some (url, isHdDownload) =>
        if !includeVideo && item.mtype == MEDIA_TYPE_VIDEO then (db, .excludedItem, [])
        else
          let mediaIsHd := if item.mtype == MEDIA_TYPE_VIDEO then true else isHdDownload
          if env.downloadOk then
            let db2 :=
              if dbEnabled && uidTruthy userId then
                let existingStatus := getMediaStatus dbEnabled db uid item.id
                if statusExists existingStatus then
                  if isHdDownload then updateMediaToHD dbEnabled db uid item.id (some savePath)
                  else db
                else saveMedia dbEnabled db uid item.id mediaIsHd (some savePath)
              else db
            (db2, .savedItem, [url])
          else (db, .errorItem, [url])

/-! ## Atomic download (src/scripts/utils.js, `download`) -/

/-- State of a file on disk: streaming into it is still in progress
(`incomplete`) or its contents are fully written (`complete`). -/
inductive FileState where
  | incomplete
  | complete
  deriving Repr, DecidableEq

/-- A tiny file system: map from path to file state (none = absent). -/
def FS : Type := String → Option FileState

/-- Contents at a path. -/
def fsGet (fs : FS) (p : String) : Option FileState := fs p

/-- Delete a path (no-op when absent), as `fs.unlinkSync` guarded by
`fs.existsSync`. -/
def fsDel (fs : FS) (p : String) : FS :=
  fun q => if q = p then none else fs q

/-- Create or replace a path with the given state. -/
def fsSet (fs : FS) (p : String) (st : FileState) : FS :=
  fun q => if q = p then some st else fs q

/-- The empty file system. -/
def fsEmpty : FS := fun _ => none

/-- How the response stream of one HTTP request plays out. -/
inductive StreamOutcome where
  /-- the stream finished; `renameOk` tells whether `fs.renameSync` of
  the temp file onto the destination then succeeds -/
  | finished (renameOk : Bool)
  /-- a response or write-stream error fires mid-transfer -/
  | streamErr
  /-- the 60-second request timeout fires -/
  | timedOut
  deriving Repr, DecidableEq

/-- The network behaviour of one `https.get` request. -/
inductive DlEvent where
  /-- a response arrives with this status code, optional `location`
  header, and (when the transfer starts) this stream outcome -/
  | response (statusCode : Nat) (location : Option String) (stream : StreamOutcome)
  /-- the request itself errors before any response -/
  | reqError (msg : String)
  deriving Repr, DecidableEq

/-- `download(url, destination)`: one list entry of `events` is consumed
per issued request (redirects re-invoke `download` on the redirect
target with the same destination). The boolean result models the
resolved value; an `Except.error` models a rejected promise. -/
def download (events : List DlEvent) (fs : FS) (url destination : String) :
    FS × Except String Bool :=
  let tempDestination := destination ++ ".tmp"
  let fs1 := fsDel fs tempDestination
  let fs2 := fsSet fs1 tempDestination .incomplete
  match events with
  | [] => (fsDel fs2 tempDestination, .error "request error")
  | ev :: rest =>
    match ev with
    | .reqError msg => (fsDel fs2 tempDestination, .error msg)
    | .response statusCode location stream =>
      if 300 ≤ statusCode && statusCode < 400 && jsTruthyStr location then
        download rest (fsDel fs2 tempDestination) (location.getD url) destination
      else if statusCode != 200 then
        (fsDel fs2 tempDestination, .error ("HTTP " ++ toString statusCode))
      else
        match stream with
        | .streamErr => (fsDel fs2 tempDestination, .error "stream error")
        | .timedOut => (fsDel fs2 tempDestination, .error "Download timeout (60s)")
        | .finished renameOk =>
          let fs3 := fsSet fs2 tempDestination .complete
          if renameOk then
            (fsSet (fsDel fs3 tempDestination) destination .complete, .ok true)
          else
            (fsDel fs3 tempDestination, .error "rename error")

/-! ## Resilient fetch client (src/scripts/utils.js, `myFetch`) -/

/-- The parsed body of a 2xx response: `response.json()` either throws,
yields an error envelope with a numeric code, or yields a clean payload
(abstracted to a number). -/
inductive RespBody where
  | parseError
  | errorCode (c : Nat)
  | payload (v : Nat)
  deriving Repr, DecidableEq

/-- What one attempt of the retry loop encounters: either a response
with a status code and body, or a thrown exception classified by the
source's `isNetworkError` predicate. The `x-app-usage` bookkeeping
(`updateRateLimitUsage` / `smartSleep`) performed on each response has
no effect on the control flow or returned value of `myFetch` and is
modelled separately in the rate-limit section. -/
inductive FetchStep where
  | resp (status : Nat) (body : RespBody)
  | exc (isNetworkError : Bool)
  deriving Repr, DecidableEq

/-- Default of the `maxRetries` option. -/
def MYFETCH_DEFAULT_MAX_RETRIES : Nat := 17

/-- The vendor rate-limit-equivalent body error codes. -/
def isRateLimitCode (c : Nat) : Bool := c == 4 || c == 17 || c == 32

/-- JS `response.ok`: status in the 2xx range. -/
def is2xx (s : Nat) : Bool := 200 ≤ s && s < 300

/-- How one pass of the `myFetch` while-loop ends. -/
inductive FetchExit where
  /-- a 2xx response with a clean body: the parsed JSON is returned -/
  | success (v : Nat)
  /-- `!response.ok` other than 429: return null, no retry -/
  | httpError (status : Nat)
  /-- error envelope with a non-rate-limit code: return null, no retry -/
  | bodyError (c : Nat)
  /-- caught exception with no retry (non-network, or budget used up) -/
  | caughtException (isNetworkError : Bool) (retryCount : Nat)
  /-- the while-condition `retryCount <= maxRetries` failed -/
  | budgetExhausted (retryCount : Nat)
  /-- the supplied event list ran out (model artifact) -/
  | outOfSteps
  deriving Repr, DecidableEq

/-- The `myFetch` retry loop, instrumented with the reason it exits.
`retryCount` starts at 0; 429 responses and rate-limit body codes
increment it and re-enter the loop; network-classified exceptions
rotate the proxy, increment it and re-enter while below the budget. -/
def myFetchGo (maxRetries : Nat) : List FetchStep → Nat → FetchExit
  | steps, retryCount =>
    if retryCount > maxRetries then .budgetExhausted retryCount
    else
      match steps with
      | [] => .outOfSteps
      | step :: rest =>
        match step with
        | .exc isNet =>
          if isNet && retryCount < maxRetries then myFetchGo maxRetries rest (retryCount + 1)
          else .caughtException isNet retryCount
        | .resp status body =>
          if status == 429 then myFetchGo maxRetries rest (retryCount + 1)
          else if !is2xx status then .httpError status
          else
            match body with
            | .parseError => .caughtException false retryCount
            | .errorCode c =>
              if isRateLimitCode c then myFetchGo maxRetries rest (retryCount + 1)
              else .bodyError c
            | .payload v => .success v

/-- `myFetch(url, {maxRetries})`: the JSON of a successful 2xx response,
or null. -/
def myFetch (maxRetries : Nat) (steps : List FetchStep) : Option Nat :=
  match myFetchGo maxRetries steps 0 with
  | .success v => some v
  | _ => none

/-- A JS exception inside the try-block of the retry loop, classified by
the catch-block's `isNetworkError` test (a `response.json()` parse
failure carries no matching code or message and classifies as
non-network). -/
inductive JsErr where
  | netErr (isNetworkError : Bool)
  | parseErr
  deriving Repr, DecidableEq

/-- The catch-block classification of an exception. -/
def errIsNetwork : JsErr → Bool
  | .netErr b => b
  | .parseErr => false

/-- What the try-block decides before any exception handling. -/
inductive TryOutcome where
  | retryAttempt
  | giveNull
  | give (v : Nat)
  deriving Repr, DecidableEq

/-- Evaluation of the try-block body of one attempt: exceptions raised
anywhere inside it (the fetch itself, or `response.json()`) surface as
`Except.error`; otherwise the attempt decides to retry, return null, or
return the parsed JSON. -/
def myFetchTryBody : FetchStep → Except JsErr TryOutcome
  | .exc isNet => .error (.netErr isNet)
  | .resp status body =>
    if status == 429 then .ok .retryAttempt
    else if !is2xx status then .ok .giveNull
    else
      match body with
      | .parseError => .error .parseErr
      | .errorCode c =>
        if isRateLimitCode c then .ok .retryAttempt else .ok .giveNull
      | .payload v => .ok (.give v)

/-- The whole of `myFetch` at the exception level: an `Except.error`
result would model an exception escaping to the caller. Every iteration
wraps its body in try/catch, and the catch-block either re-enters the
loop (network error under budget) or returns null. -/
def myFetchE (maxRetries : Nat) : List FetchStep → Nat → Except JsErr (Option Nat)
  | steps, retryCount =>
    if retryCount > maxRetries then .ok none
    else
      match steps with
      | [] => .ok none
      | step :: rest =>
        match myFetchTryBody step with
        | .ok .retryAttempt => myFetchE maxRetries rest (retryCount + 1)
        | .ok .giveNull => .ok none
        | .ok (.give v) => .ok (some v)
        | .error e =>
          if errIsNetwork e && retryCount < maxRetries then
            myFetchE maxRetries rest (retryCount + 1)
          else .ok none

/-- The payloads the step list offers on clean 2xx responses. -/
def cleanPayloads (steps : List FetchStep) : List Nat :=
  steps.filterMap (fun s =>
    match s with
    | .resp st (.payload v) => if is2xx st then some v else none
    | _ => none)

/-! ## Attachment extraction (src/scripts/download_wall_media.js) -/

/-- A post attachment as consumed by `getMediaFromAttachment`:
`target.id` and `type` may be absent (optional chaining in the source),
the media URLs (`media.image.src` for photos, `media.source` for
videos) are carried inline, and `subattachments.data` nests further
attachments of the same shape. -/
inductive Attachment where
  | mk (targetId : Option String) (atype : Option String)
       (mediaImageSrc : String) (mediaSource : String)
       (subattachments : List Attachment)

/-- Sub-attachments accessor. -/
def Attachment.subs : Attachment → List Attachment
  | .mk _ _ _ _ sub => sub

/-! The next two definitions embed `getMediaFromAttachment(attachment)`:
push one photo item for a `photo` attachment, one video item for a
video-variant attachment, recursively flatten `album` sub-attachments,
and return the empty list when `!id || !type` (missing or empty target
id or type). -/
mutual

/-- The recursive descent of `getMediaFromAttachment` over the
`subattachments.data.forEach` of an album attachment. -/
def getMediaFromAttachments : List Attachment → List MediaItem
  | [] => []
  | a :: rest => getMediaFromAttachment a ++ getMediaFromAttachments rest

/-- Body of `getMediaFromAttachment` for one attachment. -/
def getMediaFromAttachment : Attachment → List MediaItem
  | .mk targetId atype mediaImageSrc mediaSource subattachments =>
    if !jsTruthyStr targetId || !jsTruthyStr atype then []
    else
      (if atype == some "photo" then
        [{ mtype := MEDIA_TYPE_PHOTO, id := targetId.getD "", url := mediaImageSrc }]
       else []) ++
      (if atype == some "video_autoplay" || atype == some "video_inline" ||
          atype == some "video" then
        [{ mtype := MEDIA_TYPE_VIDEO, id := targetId.getD "", url := mediaSource }]
       else []) ++
      (if atype == some "album" then getMediaFromAttachments subattachments
       else [])

end

/-! ## Pagination loops (download_album.js / download_wall_media.js)

Each list entry of a script is the `myFetch` result for one page
request: `none` models a null fetch result, and the loops also stop
when the script runs out (no further mocked responses). The page limit
is `none` for the default `Infinity`. -/

/-- One album photo datum `{id, url}` as mapped from `json.data`. -/
structure AlbumImg where
  id : String
  url : String
  deriving Repr, DecidableEq

/-- The JSON of one album-photos page: `data` (already mapped to
`{id, url}` pairs) and `paging.cursors.after`. -/
structure AlbumJson where
  data : Option (List AlbumImg)
  after : Option String
  deriving Repr, DecidableEq

/-- The value `fetchAlbumPhotosFromCursor` resolves to. -/
structure AlbumPage where
  imgData : Option (List AlbumImg)
  nextCursor : Option String
  deriving Repr, DecidableEq

/-- `fetchAlbumPhotosFromCursor({albumId, cursor})`: null when `myFetch`
returned null; otherwise `{imgData: json.data?.map(...), nextCursor:
json.paging?.cursors?.after || null}`. -/
def fetchAlbumPhotosFromCursor (resp : Option AlbumJson) : Option AlbumPage :=
  match resp with
  | none => none
  | some json =>
    some { imgData := json.data,
           nextCursor := if jsTruthyStr json.after then json.after else none }

/-- Whether `currentPage <= pageLimit` (`none` = `Infinity`). -/
def pageWithinLimit (currentPage : Nat) (pageLimit : Option Nat) : Bool :=
  match pageLimit with
  | none => true
  | some l => currentPage ≤ l

/-- The `while (hasNextCursor && currentPage <= pageLimit)` loop of
`fetchAlbumPhotos`: fetch a page, append its `imgData`, advance to its
`nextCursor`, and stop on a null/absent-data fetch result, an absent
cursor, or the page limit. Cancellation is modelled as never
requested. -/
def fetchAlbumPhotosGo (pageLimit : Option Nat) :
    List (Option AlbumJson) → Nat → List AlbumImg → List AlbumImg
  | script, currentPage, allImgsData =>
    if pageWithinLimit currentPage pageLimit then
      match script with
      | [] => allImgsData
      | resp :: rest =>
        match fetchAlbumPhotosFromCursor resp with
        | none => allImgsData
        | some data =>
          match data.imgData with
          | none => allImgsData
          | some imgs =>
            let acc := allImgsData ++ imgs
            match data.nextCursor with
            | none => acc
            | some _ => fetchAlbumPhotosGo pageLimit rest (currentPage + 1) acc
    else allImgsData

/-- `fetchAlbumPhotos({albumId, pageLimit, ...})` over a mocked script:
the loop starts at page 1 with an empty accumulator (the initial
cursor, derived from `fromPhotoId`, only shapes the first request
URL). -/
def fetchAlbumPhotos (pageLimit : Option Nat) (script : List (Option AlbumJson)) :
    List AlbumImg :=
  fetchAlbumPhotosGo pageLimit script 1 []

/-- One wall post: `attachments?.data`. -/
structure WallPost where
  attachments : Option (List Attachment)

/-- The JSON of one feed page: `data` (the posts) and `paging.next`. -/
structure WallJson where
  data : Option (List WallPost)
  next : Option String

/-- Media extracted from the posts of one feed page:
`fetchData.data.forEach(post => post.attachments?.data.forEach(at =>
media.push(...getMediaFromAttachment(at))))`. -/
def wallPageMedia (posts : List WallPost) : List MediaItem :=
  (posts.map (fun post =>
    match post.attachments with
    | none => []
    | some ats => (ats.map getMediaFromAttachment).flatten)).flatten

/-- The `while (url && page <= pageLimit)` loop of `fetchWallMedia`:
fetch a page, flatten its posts' attachments, follow `paging.next`, and
stop on a null/absent-data fetch result, an absent next link, or the
page limit. -/
def fetchWallMediaGo (pageLimit : Option Nat) :
    List (Option WallJson) → Nat → Bool → List MediaItem → List MediaItem
  | script, page, urlTruthy, all_media =>
    if urlTruthy && pageWithinLimit page pageLimit then
      match script with
      | [] => all_media
      | resp :: rest =>
        match resp with
        | none => all_media
        | some fetchData =>
          match fetchData.data with
          | none => all_media
          | some posts =>
            fetchWallMediaGo pageLimit rest (page + 1)
              (jsTruthyStr fetchData.next) (all_media ++ wallPageMedia posts)
    else all_media

/-- `fetchWallMedia({targetId, pageLimit, ...})` over a mocked script:
page 1, the initial feed URL is present (truthy). -/
def fetchWallMedia (pageLimit : Option Nat) (script : List (Option WallJson)) :
    List MediaItem :=
  fetchWallMediaGo pageLimit script 1 true []

/-! ## Theorems -/

/-! ### File-system helper lemmas -/

lemma fsGet_fsDel_self (fs : FS) (p : String) : fsGet (fsDel fs p) p = none := by
  simp [fsGet, fsDel]

lemma fsGet_fsDel_ne (fs : FS) (p q : String) (h : p ≠ q) :
    fsGet (fsDel fs q) p = fsGet fs p := by
  simp [fsGet, fsDel, h]

lemma fsGet_fsSet_self (fs : FS) (p : String) (st : FileState) :
    fsGet (fsSet fs p st) p = some st := by
  simp [fsGet, fsSet]

lemma fsGet_fsSet_ne (fs : FS) (p q : String) (st : FileState) (h : p ≠ q) :
    fsGet (fsSet fs q st) p = fsGet fs p := by
  simp [fsGet, fsSet, h]

lemma dest_ne_tmp (d : String) : d ≠ d ++ ".tmp" := by
  intro h
  have hl := congrArg String.length h
  rw [String.length_append] at hl
  have h4 : (".tmp" : String).length = 4 := rfl
  omega

lemma tmp_ne_dest (d : String) : d ++ ".tmp" ≠ d := fun h => dest_ne_tmp d h.symm

/-- C5: `calculateSmartDelay` maps the maximum recorded usage
percentage u to fixed tiers: u < 20 gives 0ms; 20 ≤ u < 50 gives the
configured minimum inter-request delay (`DELAYS.MINIMUM`); 50 ≤ u < 80
gives 2000ms; 80 ≤ u < 95 gives 5000ms; u ≥ 95 gives 15000ms; and after
a response carrying `x-app-usage` with `call_count` 85 (the other
fields below the critical band), the next recommended delay is
5000ms. -/
theorem c5_calculateSmartDelay_tiers :
    (∀ (w : Nat) (s : UsageState),
      (getMaxUsagePercent s < 20 → calculateSmartDelay w s = 0) ∧
      (20 ≤ getMaxUsagePercent s → getMaxUsagePercent s < 50 →
        calculateSmartDelay w s = DELAYS_MINIMUM w) ∧
      (50 ≤ getMaxUsagePercent s → getMaxUsagePercent s < 80 →
        calculateSmartDelay w s = 2000) ∧
      (80 ≤ getMaxUsagePercent s → getMaxUsagePercent s < 95 →
        calculateSmartDelay w s = 5000) ∧
      (95 ≤ getMaxUsagePercent s → calculateSmartDelay w s = 15000)) ∧
    (∀ (w now cpu tt : Nat) (s : UsageState), cpu < 95 → tt < 95 →
      calculateSmartDelay w
        (updateRateLimitUsage s (some ⟨85, cpu, tt⟩) now) = 5000) := by
  constructor
  · intro w s
    refine ⟨?_, ?_, ?_, ?_, ?_⟩ <;>
      · intros
        simp only [calculateSmartDelay, THRESHOLDS_CRITICAL, THRESHOLDS_HIGH,
          THRESHOLDS_MEDIUM, THRESHOLDS_LOW, DELAYS_CRITICAL, DELAYS_HIGH,
          DELAYS_MODERATE]
        split_ifs <;> first | rfl | omega
  · intro w now cpu tt s hcpu htt
    simp only [calculateSmartDelay, updateRateLimitUsage, getMaxUsagePercent,
      THRESHOLDS_CRITICAL, THRESHOLDS_HIGH, THRESHOLDS_MEDIUM, THRESHOLDS_LOW,
      DELAYS_CRITICAL, DELAYS_HIGH, DELAYS_MODERATE]
    split_ifs <;> first | rfl | omega

/-- Witness for C5 at a concrete input: the scenario-B header
`{call_count: 85, total_cputime: 10, total_time: 20}` yields 5000ms. -/
theorem c5_calculateSmartDelay_tiers_witness :
    calculateSmartDelay 500
      (updateRateLimitUsage initialUsage (some ⟨85, 10, 20⟩) 7) = 5000 :=
  c5_calculateSmartDelay_tiers.2 500 7 10 20 initialUsage (by decide) (by decide)

/-- C6 counterexample: with a configured minimum inter-request delay of
3000ms, usage 49% is assigned delay 3000ms while the strictly higher
usage 50% is assigned only 2000ms, so the delay function is not
monotone nondecreasing for every configured minimum delay value. -/
theorem c6_delay_monotone_counterexample :
    calculateSmartDelay 3000
      { call_count := 49, total_cputime := 0, total_time := 0, lastUpdated := none }
      = 3000 ∧
    calculateSmartDelay 3000
      { call_count := 50, total_cputime := 0, total_time := 0, lastUpdated := none }
      = 2000 ∧
    getMaxUsagePercent
      { call_count := 49, total_cputime := 0, total_time := 0, lastUpdated := none }
      = 49 ∧
    getMaxUsagePercent
      { call_count := 50, total_cputime := 0, total_time := 0, lastUpdated := none }
      = 50 ∧ 49 < 50 ∧ (50 : Nat) ≤ 100 ∧ ¬ (3000 : Nat) ≤ 2000 := by
  decide

/-- C6 amended: whenever the effective configured minimum delay
(`DELAYS.MINIMUM`, i.e. `WAIT_BEFORE_NEXT_FETCH || 500`) does not
exceed the moderate-tier delay of 2000ms — which holds for the shipped
default 500 — the recommended delay is monotone nondecreasing in the
maximum usage percentage. -/
theorem c6_delay_monotone_amended :
    ∀ (w : Nat) (s t : UsageState), DELAYS_MINIMUM w ≤ 2000 →
      getMaxUsagePercent s ≤ getMaxUsagePercent t →
      calculateSmartDelay w s ≤ calculateSmartDelay w t := by
  intro w s t hmin h
  simp only [calculateSmartDelay, THRESHOLDS_CRITICAL, THRESHOLDS_HIGH,
    THRESHOLDS_MEDIUM, THRESHOLDS_LOW, DELAYS_CRITICAL, DELAYS_HIGH,
    DELAYS_MODERATE]
  split_ifs <;> omega

/-- Witness for the amended C6 at a concrete input: usage 25% versus
60% under the default configuration. -/
theorem c6_delay_monotone_amended_witness :
    calculateSmartDelay 500
      { call_count := 25, total_cputime := 0, total_time := 0, lastUpdated := none } ≤
    calculateSmartDelay 500
      { call_count := 60, total_cputime := 0, total_time := 0, lastUpdated := none } :=
  c6_delay_monotone_amended 500 _ _ (by decide) (by decide)

/-- C7 counterexample: recording a header with `call_count` 80 and then
one with `call_count` 10 leaves the snapshot reporting 10, not the
maximum-so-far 80 — recording lower percentages does decrease the
reported values. -/
theorem c7_snapshot_counterexample :
    (recordUsageSeq initialUsage [(⟨80, 0, 0⟩, 1)]).call_count = 80 ∧
    (recordUsageSeq initialUsage [(⟨80, 0, 0⟩, 1), (⟨10, 0, 0⟩, 2)]).call_count = 10 ∧
    10 < 80 := by
  decide

/-- C7 amended: after any sequence of recorded usage headers, the
stored snapshot equals the most recently recorded header, timestamped
with its observation time (not the field-wise maximum-so-far). -/
theorem c7_snapshot_last_header :
    ∀ (s : UsageState) (l : List (Usage × Nat)) (u : Usage) (t : Nat),
      recordUsageSeq s (l ++ [(u, t)]) =
        { call_count := u.call_count, total_cputime := u.total_cputime,
          total_time := u.total_time, lastUpdated := some t } := by
  intro s l u t
  induction l generalizing s with
  | nil => rfl
  | cons h rest ih =>
      simp only [recordUsageSeq, List.cons_append, List.foldl_cons] at ih ⊢
      exact ih _

/-- C2: `download(url, destination)` writes only to
`destination + ".tmp"` (and, on the final successful rename, to
`destination`): every other path is untouched. On any failure —
non-200 status, request error, stream error, timeout, or rename error,
at any depth of redirects — the promise rejects with the error, the
temp file does not survive, and the destination is exactly as it was
before the call, so it is never created in a partial state; only a
fully completed stream reaches the rename, after which the destination
holds complete contents. -/
theorem c2_download_atomic :
    ∀ (events : List DlEvent) (fs : FS) (url destination : String),
      (∀ e, (download events fs url destination).2 = .error e →
        fsGet (download events fs url destination).1 destination
          = fsGet fs destination ∧
        fsGet (download events fs url destination).1 (destination ++ ".tmp")
          = none) ∧
      ((download events fs url destination).2 = .ok true →
        fsGet (download events fs url destination).1 destination
          = some .complete ∧
        fsGet (download events fs url destination).1 (destination ++ ".tmp")
          = none) ∧
      (∀ p, p ≠ destination → p ≠ destination ++ ".tmp" →
        fsGet (download events fs url destination).1 p = fsGet fs p) := by
  intro events
  induction events with
  | nil =>
      intro fs url destination
      refine ⟨fun e _ => ⟨?_, ?_⟩, fun hok => by simp [download] at hok, fun p hp hp2 => ?_⟩
      · simp only [download]
        rw [fsGet_fsDel_ne _ _ _ (dest_ne_tmp destination),
          fsGet_fsSet_ne _ _ _ _ (dest_ne_tmp destination),
          fsGet_fsDel_ne _ _ _ (dest_ne_tmp destination)]
      · simp only [download]
        exact fsGet_fsDel_self _ _
      · simp only [download]
        rw [fsGet_fsDel_ne _ _ _ hp2, fsGet_fsSet_ne _ _ _ _ hp2,
          fsGet_fsDel_ne _ _ _ hp2]
  | cons ev rest ih =>
      intro fs url destination
      match ev with
      | .reqError msg =>
          refine ⟨fun e _ => ⟨?_, ?_⟩, fun hok => by simp [download] at hok,
            fun p hp hp2 => ?_⟩
          · simp only [download]
            rw [fsGet_fsDel_ne _ _ _ (dest_ne_tmp destination),
              fsGet_fsSet_ne _ _ _ _ (dest_ne_tmp destination),
              fsGet_fsDel_ne _ _ _ (dest_ne_tmp destination)]
          · simp only [download]
            exact fsGet_fsDel_self _ _
          · simp only [download]
            rw [fsGet_fsDel_ne _ _ _ hp2, fsGet_fsSet_ne _ _ _ _ hp2,
              fsGet_fsDel_ne _ _ _ hp2]
      | .response statusCode location stream =>
          by_cases hredir : (300 ≤ statusCode && statusCode < 400
              && jsTruthyStr location) = true
          · have hun : download (.response statusCode location stream :: rest)
                fs url destination
                = download rest
                    (fsDel (fsSet (fsDel fs (destination ++ ".tmp"))
                      (destination ++ ".tmp") .incomplete) (destination ++ ".tmp"))
                    (location.getD url) destination := by
              simp only [download, hredir, if_true]
            have base : ∀ q, q ≠ destination ++ ".tmp" →
                fsGet (fsDel (fsSet (fsDel fs (destination ++ ".tmp"))
                  (destination ++ ".tmp") .incomplete) (destination ++ ".tmp")) q
                  = fsGet fs q := by
              intro q hq
              rw [fsGet_fsDel_ne _ _ _ hq, fsGet_fsSet_ne _ _ _ _ hq,
                fsGet_fsDel_ne _ _ _ hq]
            obtain ⟨iherr, ihok, ihother⟩ :=
              ih (fsDel (fsSet (fsDel fs (destination ++ ".tmp"))
                (destination ++ ".tmp") .incomplete) (destination ++ ".tmp"))
                (location.getD url) destination
            refine ⟨fun e herr => ?_, fun hok => ?_, fun p hp hp2 => ?_⟩
            · rw [hun] at herr ⊢
              obtain ⟨h1, h2⟩ := iherr e herr
              exact ⟨h1.trans (base _ (dest_ne_tmp destination)), h2⟩
            · rw [hun] at hok ⊢
              exact ihok hok
            · rw [hun]
              exact (ihother p hp hp2).trans (base _ hp2)
          · by_cases h200 : (statusCode != 200) = true
            · refine ⟨fun e _ => ⟨?_, ?_⟩, fun hok => ?_, fun p hp hp2 => ?_⟩
              · simp only [download, hredir, h200]
                simp only [Bool.false_eq_true, if_false, if_true]
                rw [fsGet_fsDel_ne _ _ _ (dest_ne_tmp destination),
                  fsGet_fsSet_ne _ _ _ _ (dest_ne_tmp destination),
                  fsGet_fsDel_ne _ _ _ (dest_ne_tmp destination)]
              · simp only [download, hredir, h200]
                simp only [Bool.false_eq_true, if_false, if_true]
                exact fsGet_fsDel_self _ _
              · simp [download, hredir, h200] at hok
              · simp only [download, hredir, h200]
                simp only [Bool.false_eq_true, if_false, if_true]
                rw [fsGet_fsDel_ne _ _ _ hp2, fsGet_fsSet_ne _ _ _ _ hp2,
                  fsGet_fsDel_ne _ _ _ hp2]
            · match stream with
              | .streamErr =>
                  refine ⟨fun e _ => ⟨?_, ?_⟩, fun hok => ?_, fun p hp hp2 => ?_⟩
                  · simp only [download, hredir, h200]
                    simp only [Bool.false_eq_true, if_false]
                    rw [fsGet_fsDel_ne _ _ _ (dest_ne_tmp destination),
                      fsGet_fsSet_ne _ _ _ _ (dest_ne_tmp destination),
                      fsGet_fsDel_ne _ _ _ (dest_ne_tmp destination)]
                  · simp only [download, hredir, h200]
                    simp only [Bool.false_eq_true, if_false]
                    exact fsGet_fsDel_self _ _
                  · simp [download, hredir, h200] at hok
                  · simp only [download, hredir, h200]
                    simp only [Bool.false_eq_true, if_false]
                    rw [fsGet_fsDel_ne _ _ _ hp2, fsGet_fsSet_ne _ _ _ _ hp2,
                      fsGet_fsDel_ne _ _ _ hp2]
              | .timedOut =>
                  refine ⟨fun e _ => ⟨?_, ?_⟩, fun hok => ?_, fun p hp hp2 => ?_⟩
                  · simp only [download, hredir, h200]
                    simp only [Bool.false_eq_true, if_false]
                    rw [fsGet_fsDel_ne _ _ _ (dest_ne_tmp destination),
                      fsGet_fsSet_ne _ _ _ _ (dest_ne_tmp destination),
                      fsGet_fsDel_ne _ _ _ (dest_ne_tmp destination)]
                  · simp only [download, hredir, h200]
                    simp only [Bool.false_eq_true, if_false]
                    exact fsGet_fsDel_self _ _
                  · simp [download, hredir, h200] at hok
                  · simp only [download, hredir, h200]
                    simp only [Bool.false_eq_true, if_false]
                    rw [fsGet_fsDel_ne _ _ _ hp2, fsGet_fsSet_ne _ _ _ _ hp2,
                      fsGet_fsDel_ne _ _ _ hp2]
              | .finished renameOk =>
                  by_cases hren : renameOk = true
                  · subst hren
                    refine ⟨fun e herr => ?_, fun _ => ⟨?_, ?_⟩, fun p hp hp2 => ?_⟩
                    · simp [download, hredir, h200] at herr
                    · simp only [download, hredir, h200]
                      simp only [Bool.false_eq_true, if_false, if_true]
                      exact fsGet_fsSet_self _ _ _
                    · simp only [download, hredir, h200]
                      simp only [Bool.false_eq_true, if_false, if_true]
                      rw [fsGet_fsSet_ne _ _ _ _ (tmp_ne_dest destination)]
                      exact fsGet_fsDel_self _ _
                    · simp only [download, hredir, h200]
                      simp only [Bool.false_eq_true, if_false, if_true]
                      rw [fsGet_fsSet_ne _ _ _ _ hp, fsGet_fsDel_ne _ _ _ hp2,
                        fsGet_fsSet_ne _ _ _ _ hp2, fsGet_fsSet_ne _ _ _ _ hp2,
                        fsGet_fsDel_ne _ _ _ hp2]
                  · have hren2 : renameOk = false := by
                      cases renameOk
                      · rfl
                      · exact absurd rfl hren
                    subst hren2
                    refine ⟨fun e _ => ⟨?_, ?_⟩, fun hok => ?_, fun p hp hp2 => ?_⟩
                    · simp only [download, hredir, h200]
                      simp only [Bool.false_eq_true, if_false]
                      rw [fsGet_fsDel_ne _ _ _ (dest_ne_tmp destination),
                        fsGet_fsSet_ne _ _ _ _ (dest_ne_tmp destination),
                        fsGet_fsSet_ne _ _ _ _ (dest_ne_tmp destination),
                        fsGet_fsDel_ne _ _ _ (dest_ne_tmp destination)]
                    · simp only [download, hredir, h200]
                      simp only [Bool.false_eq_true, if_false]
                      exact fsGet_fsDel_self _ _
                    · simp [download, hredir, h200] at hok
                    · simp only [download, hredir, h200]
                      simp only [Bool.false_eq_true, if_false]
                      rw [fsGet_fsDel_ne _ _ _ hp2, fsGet_fsSet_ne _ _ _ _ hp2,
                        fsGet_fsSet_ne _ _ _ _ hp2, fsGet_fsDel_ne _ _ _ hp2]

/-- Witness for C2 at concrete inputs: a stream error after stream
start leaves no temp file and no destination, and a fully successful
run produces a complete destination and no temp file. -/
theorem c2_download_atomic_witness :
    fsGet (download [.response 200 none .streamErr] fsEmpty "u" "d").1 "d"
      = fsGet fsEmpty "d" ∧
    fsGet (download [.response 200 none .streamErr] fsEmpty "u" "d").1 ("d" ++ ".tmp")
      = none ∧
    fsGet (download [.response 200 none (.finished true)] fsEmpty "u" "d").1 "d"
      = some .complete ∧
    fsGet (download [.response 200 none (.finished true)] fsEmpty "u" "d").1 ("d" ++ ".tmp")
      = none :=
  ⟨((c2_download_atomic [.response 200 none .streamErr] fsEmpty "u" "d").1
      "stream error" rfl).1,
   ((c2_download_atomic [.response 200 none .streamErr] fsEmpty "u" "d").1
      "stream error" rfl).2,
   ((c2_download_atomic [.response 200 none (.finished true)] fsEmpty "u" "d").2.1
      rfl).1,
   ((c2_download_atomic [.response 200 none (.finished true)] fsEmpty "u" "d").2.1
      rfl).2⟩

/-! ### Unfolding lemmas for the fetch retry loop -/

lemma myFetchGo_cons (mr : Nat) (step : FetchStep) (rest : List FetchStep) (rc : Nat) :
    myFetchGo mr (step :: rest) rc =
      if rc > mr then .budgetExhausted rc
      else
        match step with
        | .exc isNet =>
          if isNet && decide (rc < mr) then myFetchGo mr rest (rc + 1)
          else .caughtException isNet rc
        | .resp status body =>
          if status == 429 then myFetchGo mr rest (rc + 1)
          else if !is2xx status then .httpError status
          else
            match body with
            | .parseError => .caughtException false rc
            | .errorCode c =>
              if isRateLimitCode c then myFetchGo mr rest (rc + 1)
              else .bodyError c
            | .payload v => .success v := rfl

lemma myFetchGo_nil (mr rc : Nat) :
    myFetchGo mr [] rc =
      if rc > mr then .budgetExhausted rc else .outOfSteps := rfl

lemma myFetchE_cons (mr : Nat) (step : FetchStep) (rest : List FetchStep) (rc : Nat) :
    myFetchE mr (step :: rest) rc =
      if rc > mr then .ok none
      else
        match myFetchTryBody step with
        | .ok .retryAttempt => myFetchE mr rest (rc + 1)
        | .ok .giveNull => .ok none
        | .ok (.give v) => .ok (some v)
        | .error e =>
          if errIsNetwork e && decide (rc < mr) then myFetchE mr rest (rc + 1)
          else .ok none := rfl

lemma myFetchE_nil (mr rc : Nat) : myFetchE mr [] rc = .ok none := by
  rw [show myFetchE mr [] rc
      = if rc > mr then .ok none else .ok none from rfl]
  split <;> rfl

/-- C4 counterexample: a 2xx response whose body is a vendor error
envelope with the non-rate-limit code 100 makes `myFetch` (with the
default retry budget 17) return null on the very first attempt — a
null path that is neither a non-2xx status nor retry-budget
exhaustion. -/
theorem c4_myFetch_null_counterexample :
    myFetch 17 [.resp 200 (.errorCode 100)] = none ∧
    myFetchGo 17 [.resp 200 (.errorCode 100)] 0 = .bodyError 100 ∧
    is2xx 200 = true ∧ isRateLimitCode 100 = false ∧
    MYFETCH_DEFAULT_MAX_RETRIES = 17 ∧ 0 < 17 := by
  decide

/-- C4 amended: `myFetch` returns null immediately and without retry on
any non-2xx status other than 429; 429 responses and the vendor body
error codes 4, 17, 32 are absorbed by sleeping and re-attempting (with
an incremented retry count); and the caller also receives null
immediately when a 2xx response carries a vendor error envelope with
any other code, or when a caught exception is not classified as a
retryable network error (or the network-retry budget is already used
up); exhausting the bounded retry budget (`maxRetries`, default 17) is
the remaining path to a null result, e.g. on an unbroken run of 429
responses. -/
theorem c4_myFetch_null_paths_amended :
    (∀ (mr st : Nat) (body : RespBody) (rest : List FetchStep) (rc : Nat),
      rc ≤ mr → st ≠ 429 → is2xx st = false →
      myFetchGo mr (.resp st body :: rest) rc = .httpError st) ∧
    (∀ (mr : Nat) (body : RespBody) (rest : List FetchStep) (rc : Nat),
      rc ≤ mr →
      myFetchGo mr (.resp 429 body :: rest) rc = myFetchGo mr rest (rc + 1)) ∧
    (∀ (mr st c : Nat) (rest : List FetchStep) (rc : Nat),
      rc ≤ mr → st ≠ 429 → is2xx st = true → isRateLimitCode c = true →
      myFetchGo mr (.resp st (.errorCode c) :: rest) rc
        = myFetchGo mr rest (rc + 1)) ∧
    (∀ (mr st c : Nat) (rest : List FetchStep) (rc : Nat),
      rc ≤ mr → st ≠ 429 → is2xx st = true → isRateLimitCode c = false →
      myFetchGo mr (.resp st (.errorCode c) :: rest) rc = .bodyError c) ∧
    (∀ (mr : Nat) (isNet : Bool) (rest : List FetchStep) (rc : Nat),
      rc ≤ mr → (isNet = false ∨ rc = mr) →
      myFetchGo mr (.exc isNet :: rest) rc = .caughtException isNet rc) ∧
    (∀ (mr : Nat) (body : RespBody),
      myFetch mr (List.replicate (mr + 1) (.resp 429 body)) = none ∧
      myFetchGo mr (List.replicate (mr + 1) (.resp 429 body)) 0
        = .budgetExhausted (mr + 1)) := by
  have budget : ∀ (mr : Nat) (body : RespBody) (k rc : Nat), rc + k = mr + 1 →
      myFetchGo mr (List.replicate k (.resp 429 body)) rc
        = .budgetExhausted (mr + 1) := by
    intro mr body k
    induction k with
    | zero =>
        intro rc h
        rw [List.replicate_zero, myFetchGo_nil, if_pos (by omega)]
        exact congrArg _ (by omega)
    | succ n ih =>
        intro rc h
        rw [List.replicate_succ, myFetchGo_cons, if_neg (by omega)]
        simp only [beq_self_eq_true, if_true]
        exact ih (rc + 1) (by omega)
  refine ⟨?_, ?_, ?_, ?_, ?_, ?_⟩
  · intro mr st body rest rc h1 h2 h3
    rw [myFetchGo_cons, if_neg (by omega)]
    simp only [h3, beq_iff_eq, h2, if_false, Bool.not_false, if_true]
  · intro mr body rest rc h1
    rw [myFetchGo_cons, if_neg (by omega)]
    simp only [beq_self_eq_true, if_true]
  · intro mr st c rest rc h1 h2 h3 h4
    rw [myFetchGo_cons, if_neg (by omega)]
    simp [h3, h4, h2]
  · intro mr st c rest rc h1 h2 h3 h4
    rw [myFetchGo_cons, if_neg (by omega)]
    simp [h3, h4, h2]
  · intro mr isNet rest rc h1 h2
    rw [myFetchGo_cons, if_neg (by omega)]
    rcases h2 with h | h
    · subst h
      simp
    · subst h
      simp
  · intro mr body
    have hb := budget mr body (mr + 1) 0 (by omega)
    refine ⟨?_, hb⟩
    rw [myFetch, hb]

/-- Witness for the amended C4 at concrete inputs: a 404 gives an
immediate null-producing exit, a 429 retries, body code 4 retries, body
code 100 gives an immediate null-producing exit, and 18 straight 429
responses exhaust the default budget of 17. -/
theorem c4_myFetch_null_paths_amended_witness :
    myFetchGo 17 [.resp 404 (.payload 5)] 0 = .httpError 404 ∧
    myFetchGo 17 [.resp 429 (.payload 5), .resp 200 (.payload 5)] 0
      = myFetchGo 17 [.resp 200 (.payload 5)] 1 ∧
    myFetchGo 17 [.resp 200 (.errorCode 4), .resp 200 (.payload 5)] 0
      = myFetchGo 17 [.resp 200 (.payload 5)] 1 ∧
    myFetchGo 17 [.resp 200 (.errorCode 100)] 0 = .bodyError 100 ∧
    myFetch 17 (List.replicate 18 (.resp 429 (.payload 5))) = none :=
  ⟨c4_myFetch_null_paths_amended.1 17 404 (.payload 5) [] 0 (by decide)
      (by decide) (by decide),
   c4_myFetch_null_paths_amended.2.1 17 (.payload 5) [.resp 200 (.payload 5)] 0
      (by decide),
   c4_myFetch_null_paths_amended.2.2.1 17 200 4 [.resp 200 (.payload 5)] 0
      (by decide) (by decide) (by decide) (by decide),
   c4_myFetch_null_paths_amended.2.2.2.1 17 200 100 [] 0 (by decide) (by decide)
      (by decide) (by decide),
   (c4_myFetch_null_paths_amended.2.2.2.2.2 17 (.payload 5)).1⟩

lemma mem_cleanPayloads_cons (step : FetchStep) (rest : List FetchStep) (v : Nat)
    (h : v ∈ cleanPayloads rest) : v ∈ cleanPayloads (step :: rest) := by
  simp only [cleanPayloads, List.filterMap_cons] at h ⊢
  split
  · exact h
  · exact List.mem_cons_of_mem _ h

lemma mem_cleanPayloads_head (st : Nat) (v : Nat) (rest : List FetchStep)
    (h : is2xx st = true) :
    v ∈ cleanPayloads (.resp st (.payload v) :: rest) := by
  simp [cleanPayloads, List.filterMap_cons, h]

/-- C10: `myFetch` is total at its public interface — evaluated at the
exception level, it never propagates an exception to its caller
(`myFetchE` always returns `.ok`, equal to the plain result), and any
non-null result is the parsed JSON payload of one of the script's
clean 2xx responses. -/
theorem c10_myFetch_total :
    (∀ (mr : Nat) (steps : List FetchStep),
      myFetchE mr steps 0 = .ok (myFetch mr steps)) ∧
    (∀ (mr : Nat) (steps : List FetchStep) (v : Nat),
      myFetch mr steps = some v → v ∈ cleanPayloads steps) := by
  have bridge : ∀ (mr : Nat) (steps : List FetchStep) (rc : Nat),
      myFetchE mr steps rc =
        .ok (match myFetchGo mr steps rc with
             | .success v => some v
             | _ => none) := by
    intro mr steps
    induction steps with
    | nil =>
        intro rc
        rw [myFetchE_nil, myFetchGo_nil]
        by_cases hrc : rc > mr
        · rw [if_pos hrc]
        · rw [if_neg hrc]
    | cons step rest ih =>
        intro rc
        rw [myFetchE_cons, myFetchGo_cons]
        by_cases hrc : rc > mr
        · rw [if_pos hrc, if_pos hrc]
        · rw [if_neg hrc, if_neg hrc]
          match step with
          | .exc isNet =>
              simp only [myFetchTryBody, errIsNetwork]
              by_cases hn : (isNet && decide (rc < mr)) = true
              · rw [if_pos hn, if_pos hn]
                exact ih (rc + 1)
              · rw [if_neg hn, if_neg hn]
          | .resp status body =>
              simp only [myFetchTryBody]
              by_cases h429 : (status == 429) = true
              · simp only [h429, if_true]
                exact ih (rc + 1)
              · simp only [h429, Bool.false_eq_true, if_false]
                by_cases hok : (!is2xx status) = true
                · simp only [hok, if_true]
                · simp only [hok, Bool.false_eq_true, if_false]
                  match body with
                  | .parseError => rfl
                  | .payload v => rfl
                  | .errorCode c =>
                      by_cases hrl : isRateLimitCode c = true
                      · simp only [hrl, if_true]
                        exact ih (rc + 1)
                      · simp only [hrl, Bool.false_eq_true, if_false]
  have prov : ∀ (mr : Nat) (steps : List FetchStep) (rc v : Nat),
      myFetchGo mr steps rc = .success v → v ∈ cleanPayloads steps := by
    intro mr steps
    induction steps with
    | nil =>
        intro rc v h
        rw [myFetchGo_nil] at h
        split at h <;> exact absurd h (by simp)
    | cons step rest ih =>
        intro rc v h
        rw [myFetchGo_cons] at h
        split at h
        · exact absurd h (by simp)
        · split at h
          · split at h
            · exact mem_cleanPayloads_cons _ _ _ (ih _ _ h)
            · exact absurd h (by simp)
          · split at h
            · exact mem_cleanPayloads_cons _ _ _ (ih _ _ h)
            · split at h
              · exact absurd h (by simp)
              · split at h
                · exact absurd h (by simp)
                · split at h
                  · exact mem_cleanPayloads_cons _ _ _ (ih _ _ h)
                  · exact absurd h (by simp)
                · cases h
                  rename_i status h429 hok x
                  refine mem_cleanPayloads_head _ _ _ ?_
                  revert hok
                  cases is2xx status <;> simp
  refine ⟨fun mr steps => ?_, fun mr steps v h => ?_⟩
  · rw [bridge mr steps 0, myFetch]
  · rw [myFetch] at h
    cases hgo : myFetchGo mr steps 0 <;> rw [hgo] at h <;>
      first
        | (simp only [Option.some.injEq] at h; subst h; exact prov mr steps 0 _ hgo)
        | simp at h

/-- Witness for C10 at a concrete input: a single clean 200 response. -/
theorem c10_myFetch_total_witness :
    myFetchE 17 [.resp 200 (.payload 9)] 0
      = .ok (myFetch 17 [.resp 200 (.payload 9)]) ∧
    9 ∈ cleanPayloads [.resp 200 (.payload 9)] :=
  ⟨c10_myFetch_total.1 17 [.resp 200 (.payload 9)],
   c10_myFetch_total.2 17 [.resp 200 (.payload 9)] 9 (by decide)⟩

/-- C9 counterexample: an `album` attachment whose own `target.id` is
absent is dropped wholesale by `getMediaFromAttachment` (the `!id ||
!type` guard fires before the album recursion), even though the
concatenation of recursively flattening its sub-attachments — what the
claim says an album attachment yields — is the one photo item of its
photo sub-attachment. -/
theorem c9_flatten_counterexample :
    getMediaFromAttachment
      (.mk none (some "album") "i" "s"
        [.mk (some "2") (some "photo") "img2" "s2" []]) = [] ∧
    getMediaFromAttachments [Attachment.mk (some "2") (some "photo") "img2" "s2" []]
      = [{ mtype := MEDIA_TYPE_PHOTO, id := "2", url := "img2" }] ∧
    ([{ mtype := MEDIA_TYPE_PHOTO, id := "2", url := "img2" }] : List MediaItem)
      ≠ [] := by
  refine ⟨rfl, rfl, by simp⟩

lemma isEmpty_false_of_ne (i : String) (h : i ≠ "") : i.isEmpty = false := by
  cases he : i.isEmpty
  · rfl
  · exact absurd (by simpa [String.isEmpty_iff] using he) h

/-- C9 amended: `getMediaFromAttachment` flattens as the spec says for
attachments that carry a (nonempty) target identifier — one photo item
for `photo`, one video item for the three video-variant types, the
recursive concatenation for `album` — but an attachment missing (or
carrying an empty) target identifier **or** type is dropped silently,
not only one missing both; in particular an album attachment
containing one photo sub-attachment and one video sub-attachment
flattens to exactly those 2 items. -/
theorem c9_flatten_amended :
    (∀ (i img src : String) (sub : List Attachment), i ≠ "" →
      getMediaFromAttachment (.mk (some i) (some "photo") img src sub)
        = [{ mtype := MEDIA_TYPE_PHOTO, id := i, url := img }]) ∧
    (∀ (ty : String),
      (ty = "video_autoplay" ∨ ty = "video_inline" ∨ ty = "video") →
      ∀ (i img src : String) (sub : List Attachment), i ≠ "" →
      getMediaFromAttachment (.mk (some i) (some ty) img src sub)
        = [{ mtype := MEDIA_TYPE_VIDEO, id := i, url := src }]) ∧
    (∀ (i img src : String) (sub : List Attachment), i ≠ "" →
      getMediaFromAttachment (.mk (some i) (some "album") img src sub)
        = getMediaFromAttachments sub) ∧
    (∀ (sub : List Attachment),
      getMediaFromAttachments sub = (sub.map getMediaFromAttachment).flatten) ∧
    (∀ (tid ty : Option String) (img src : String) (sub : List Attachment),
      (!jsTruthyStr tid || !jsTruthyStr ty) = true →
      getMediaFromAttachment (.mk tid ty img src sub) = []) ∧
    getMediaFromAttachment
      (.mk (some "1") (some "album") "i" "s"
        [.mk (some "2") (some "photo") "img2" "s2" [],
         .mk (some "3") (some "video_inline") "img3" "s3" []])
      = [{ mtype := MEDIA_TYPE_PHOTO, id := "2", url := "img2" },
         { mtype := MEDIA_TYPE_VIDEO, id := "3", url := "s3" }] := by
  refine ⟨?_, ?_, ?_, ?_, ?_, rfl⟩
  · intro i img src sub h
    have hp : ("photo" : String).isEmpty = false := rfl
    simp [getMediaFromAttachment, jsTruthyStr, isEmpty_false_of_ne i h, hp]
  · intro ty hty i img src sub h
    rcases hty with h1 | h1 | h1 <;> subst h1 <;>
      · have hp : (String.isEmpty "video_autoplay") = false := rfl
        have hp2 : (String.isEmpty "video_inline") = false := rfl
        have hp3 : (String.isEmpty "video") = false := rfl
        simp [getMediaFromAttachment, jsTruthyStr, isEmpty_false_of_ne i h,
          hp, hp2, hp3]
  · intro i img src sub h
    have hp : ("album" : String).isEmpty = false := rfl
    simp [getMediaFromAttachment, jsTruthyStr, isEmpty_false_of_ne i h, hp]
  · intro sub
    induction sub with
    | nil => rfl
    | cons a rest ih => simp [getMediaFromAttachments, ih]
  · intro tid ty img src sub h
    rw [getMediaFromAttachment]
    rw [if_pos h]

/-- Witness for the amended C9 at concrete inputs. -/
theorem c9_flatten_amended_witness :
    getMediaFromAttachment
      (.mk (some "7") (some "photo") "imgX" "srcX" [])
      = [{ mtype := MEDIA_TYPE_PHOTO, id := "7", url := "imgX" }] ∧
    getMediaFromAttachment
      (.mk (some "8") (some "video") "imgY" "srcY" [])
      = [{ mtype := MEDIA_TYPE_VIDEO, id := "8", url := "srcY" }] ∧
    getMediaFromAttachment (.mk (some "9") none "i" "s" []) = [] :=
  ⟨c9_flatten_amended.1 "7" "imgX" "srcX" [] (by decide),
   c9_flatten_amended.2.1 "video" (by simp) "8" "imgY" "srcY" [] (by decide),
   c9_flatten_amended.2.2.2.2.1 (some "9") none "i" "s" [] (by decide)⟩

/-! ### Pagination loop lemmas -/

lemma fetchAlbumPhotosGo_nilEq (pageLimit : Option Nat) (page : Nat)
    (acc : List AlbumImg) :
    fetchAlbumPhotosGo pageLimit [] page acc = acc := by
  rw [show fetchAlbumPhotosGo pageLimit [] page acc
      = if pageWithinLimit page pageLimit then acc else acc from rfl, ite_self]

lemma fetchAlbumPhotosGo_consEq (pageLimit : Option Nat) (resp : Option AlbumJson)
    (rest : List (Option AlbumJson)) (page : Nat) (acc : List AlbumImg) :
    fetchAlbumPhotosGo pageLimit (resp :: rest) page acc =
      if pageWithinLimit page pageLimit then
        match fetchAlbumPhotosFromCursor resp with
        | none => acc
        | some data =>
          match data.imgData with
          | none => acc
          | some imgs =>
            match data.nextCursor with
            | none => acc ++ imgs
            | some _ => fetchAlbumPhotosGo pageLimit rest (page + 1) (acc ++ imgs)
      else acc := rfl

lemma fetchWallMediaGo_nilEq (pageLimit : Option Nat) (page : Nat) (urlTruthy : Bool)
    (acc : List MediaItem) :
    fetchWallMediaGo pageLimit [] page urlTruthy acc = acc := by
  rw [show fetchWallMediaGo pageLimit [] page urlTruthy acc
      = if urlTruthy && pageWithinLimit page pageLimit then acc else acc from rfl,
    ite_self]

lemma fetchWallMediaGo_consEq (pageLimit : Option Nat) (resp : Option WallJson)
    (rest : List (Option WallJson)) (page : Nat) (urlTruthy : Bool)
    (acc : List MediaItem) :
    fetchWallMediaGo pageLimit (resp :: rest) page urlTruthy acc =
      if urlTruthy && pageWithinLimit page pageLimit then
        match resp with
        | none => acc
        | some fetchData =>
          match fetchData.data with
          | none => acc
          | some posts =>
            fetchWallMediaGo pageLimit rest (page + 1)
              (jsTruthyStr fetchData.next) (acc ++ wallPageMedia posts)
      else acc := rfl

lemma fetchWallMediaGo_urlFalse (pageLimit : Option Nat)
    (script : List (Option WallJson)) (page : Nat) (acc : List MediaItem) :
    fetchWallMediaGo pageLimit script page false acc = acc := by
  cases script with
  | nil => exact fetchWallMediaGo_nilEq _ _ _ _
  | cons r rest => rw [fetchWallMediaGo_consEq]; simp

lemma fetchAlbumPhotosGo_nolimit
    (mids : List (List AlbumImg × String)) (finalImgs : List AlbumImg)
    (junk : List (Option AlbumJson)) :
    ∀ (page : Nat) (acc : List AlbumImg), (∀ pr ∈ mids, pr.2 ≠ "") →
    fetchAlbumPhotosGo none
      (mids.map (fun pr => some { data := some pr.1, after := some pr.2 })
        ++ [some { data := some finalImgs, after := none }] ++ junk)
      page acc
      = acc ++ (mids.map (fun pr => pr.1)).flatten ++ finalImgs := by
  induction mids with
  | nil =>
      intro page acc _
      rw [List.map_nil, List.nil_append, List.cons_append, fetchAlbumPhotosGo_consEq]
      simp [pageWithinLimit, fetchAlbumPhotosFromCursor, jsTruthyStr]
  | cons pr rest ih =>
      intro page acc hmids
      have hpr : pr.2 ≠ "" := hmids pr (List.mem_cons_self _ _)
      rw [List.map_cons, List.cons_append, List.cons_append, fetchAlbumPhotosGo_consEq]
      rw [show pageWithinLimit page none = true from rfl, if_pos rfl]
      simp only [fetchAlbumPhotosFromCursor, jsTruthyStr,
        isEmpty_false_of_ne pr.2 hpr, Bool.not_false, if_pos]
      rw [ih (page + 1) (acc ++ pr.1) (fun q hq => hmids q (List.mem_cons_of_mem _ hq))]
      simp

lemma fetchAlbumPhotosGo_limit
    (L : Nat) (mids : List (List AlbumImg × String)) (junk : List (Option AlbumJson)) :
    ∀ (page : Nat) (acc : List AlbumImg), (∀ pr ∈ mids, pr.2 ≠ "") →
    page + mids.length = L + 1 →
    fetchAlbumPhotosGo (some L)
      (mids.map (fun pr => some { data := some pr.1, after := some pr.2 }) ++ junk)
      page acc
      = acc ++ (mids.map (fun pr => pr.1)).flatten := by
  induction mids with
  | nil =>
      intro page acc _ hpage
      simp only [List.length_nil, Nat.add_zero] at hpage
      have hlim : pageWithinLimit page (some L) = false := by
        simp only [pageWithinLimit, decide_eq_false_iff_not]
        omega
      cases junk with
      | nil => rw [List.map_nil, List.nil_append, fetchAlbumPhotosGo_nilEq]; simp
      | cons r rs =>
          rw [List.map_nil, List.nil_append, fetchAlbumPhotosGo_consEq, hlim]
          simp
  | cons pr rest ih =>
      intro page acc hmids hpage
      simp only [List.length_cons] at hpage
      have hpr : pr.2 ≠ "" := hmids pr (List.mem_cons_self _ _)
      have hlim : pageWithinLimit page (some L) = true := by
        simp only [pageWithinLimit, decide_eq_true_eq]
        omega
      rw [List.map_cons, List.cons_append, fetchAlbumPhotosGo_consEq, hlim, if_pos rfl]
      simp only [fetchAlbumPhotosFromCursor, jsTruthyStr,
        isEmpty_false_of_ne pr.2 hpr, Bool.not_false, if_pos]
      rw [ih (page + 1) (acc ++ pr.1)
        (fun q hq => hmids q (List.mem_cons_of_mem _ hq)) (by omega)]
      simp

lemma fetchWallMediaGo_nolimit
    (mids : List (List WallPost × String)) (finalPosts : List WallPost)
    (junk : List (Option WallJson)) :
    ∀ (page : Nat) (acc : List MediaItem), (∀ pr ∈ mids, pr.2 ≠ "") →
    fetchWallMediaGo none
      (mids.map (fun pr => some { data := some pr.1, next := some pr.2 })
        ++ [some { data := some finalPosts, next := none }] ++ junk)
      page true acc
      = acc ++ (mids.map (fun pr => wallPageMedia pr.1)).flatten
          ++ wallPageMedia finalPosts := by
  induction mids with
  | nil =>
      intro page acc _
      rw [List.map_nil, List.nil_append, List.cons_append, fetchWallMediaGo_consEq]
      rw [show ((true && pageWithinLimit page none) = true) from rfl, if_pos rfl]
      simp only []
      rw [show jsTruthyStr (none : Option String) = false from rfl,
        fetchWallMediaGo_urlFalse]
      simp
  | cons pr rest ih =>
      intro page acc hmids
      have hpr : pr.2 ≠ "" := hmids pr (List.mem_cons_self _ _)
      rw [List.map_cons, List.cons_append, List.cons_append, fetchWallMediaGo_consEq]
      rw [show ((true && pageWithinLimit page none) = true) from rfl, if_pos rfl]
      simp only []
      rw [show jsTruthyStr (some pr.2) = true by
        simp [jsTruthyStr, isEmpty_false_of_ne pr.2 hpr]]
      rw [ih (page + 1) (acc ++ wallPageMedia pr.1)
        (fun q hq => hmids q (List.mem_cons_of_mem _ hq))]
      simp

/-- C8: for every finite mocked script of pages, the pagination loops
terminate with a result equal to the concatenation of the extractable
items of the consumed pages (so the total count is the sum over
pages): cursor style (`fetchAlbumPhotos`) consumes every page up to
the one returning no cursor — further mocked pages are never fetched —
and under a page limit it consumes exactly the limit; link style
(`fetchWallMedia`) likewise follows next-page links up to the page
without one; and in the concrete scenario (page 1: cursor present, 2
photos; page 2: no cursor, 1 photo) the total extracted is 3 and the
loop stops after page 2 even when a third page is mocked. -/
theorem c8_pagination_terminates_with_total_count :
    (∀ (mids : List (List AlbumImg × String)) (finalImgs : List AlbumImg)
       (junk : List (Option AlbumJson)), (∀ pr ∈ mids, pr.2 ≠ "") →
      fetchAlbumPhotos none
        (mids.map (fun pr => some { data := some pr.1, after := some pr.2 })
          ++ [some { data := some finalImgs, after := none }] ++ junk)
        = (mids.map (fun pr => pr.1)).flatten ++ finalImgs) ∧
    (∀ (L : Nat) (mids : List (List AlbumImg × String))
       (junk : List (Option AlbumJson)), (∀ pr ∈ mids, pr.2 ≠ "") →
      mids.length = L →
      fetchAlbumPhotos (some L)
        (mids.map (fun pr => some { data := some pr.1, after := some pr.2 }) ++ junk)
        = (mids.map (fun pr => pr.1)).flatten) ∧
    (∀ (mids : List (List WallPost × String)) (finalPosts : List WallPost)
       (junk : List (Option WallJson)), (∀ pr ∈ mids, pr.2 ≠ "") →
      fetchWallMedia none
        (mids.map (fun pr => some { data := some pr.1, next := some pr.2 })
          ++ [some { data := some finalPosts, next := none }] ++ junk)
        = (mids.map (fun pr => wallPageMedia pr.1)).flatten
            ++ wallPageMedia finalPosts) ∧
    (fetchAlbumPhotos none
        [some { data := some [⟨"1", "a"⟩, ⟨"2", "b"⟩], after := some "CAAR" },
         some { data := some [⟨"3", "c"⟩], after := none },
         some { data := some [⟨"9", "z"⟩], after := some "X" }]
        = [⟨"1", "a"⟩, ⟨"2", "b"⟩, ⟨"3", "c"⟩] ∧
      (fetchAlbumPhotos none
        [some { data := some [⟨"1", "a"⟩, ⟨"2", "b"⟩], after := some "CAAR" },
         some { data := some [⟨"3", "c"⟩], after := none },
         some { data := some [⟨"9", "z"⟩], after := some "X" }]).length = 2 + 1) := by
  refine ⟨?_, ?_, ?_, by constructor <;> rfl⟩
  · intro mids finalImgs junk h
    rw [fetchAlbumPhotos, fetchAlbumPhotosGo_nolimit mids finalImgs junk 1 [] h]
    simp
  · intro L mids junk h hlen
    rw [fetchAlbumPhotos, fetchAlbumPhotosGo_limit L mids junk 1 [] h (by omega)]
    simp
  · intro mids finalPosts junk h
    rw [fetchWallMedia, fetchWallMediaGo_nolimit mids finalPosts junk 1 [] h]
    simp

/-- Witness for C8 at concrete inputs: scenario A instantiated through
the general cursor-style statement. -/
theorem c8_pagination_witness :
    fetchAlbumPhotos none
      [some { data := some [⟨"1", "a"⟩, ⟨"2", "b"⟩], after := some "CAAR" },
       some { data := some [⟨"3", "c"⟩], after := none }]
      = [⟨"1", "a"⟩, ⟨"2", "b"⟩] ++ [⟨"3", "c"⟩] ∧
    fetchWallMedia none [some { data := some [], next := none }] = [] :=
  ⟨by
    have h := c8_pagination_terminates_with_total_count.1
      [([⟨"1", "a"⟩, ⟨"2", "b"⟩], "CAAR")] [⟨"3", "c"⟩] []
      (by intro pr hpr; simp at hpr; subst hpr; decide)
    simpa using h,
   by
    have h := c8_pagination_terminates_with_total_count.2.2.1 [] [] []
      (by intro pr hpr; simp at hpr)
    simpa [wallPageMedia] using h⟩

/-! ### Media store lemmas -/

lemma findMedia_cons (r : MediaRec) (rest : MediaDB) (u : Nat) (m : String) :
    findMedia (r :: rest) u m =
      if (r.user_id == u && r.media_id == m) = true then some r
      else findMedia rest u m := by
  by_cases hk : (r.user_id == u && r.media_id == m) = true
  · simp [findMedia, List.find?_cons, hk]
  · simp only [Bool.not_eq_true] at hk
    simp [findMedia, List.find?_cons, hk]

lemma findMedia_append_some (db l : MediaDB) (u : Nat) (m : String) (r : MediaRec)
    (h : findMedia db u m = some r) : findMedia (db ++ l) u m = some r := by
  rw [findMedia] at h ⊢
  rw [List.find?_append, h]
  rfl

lemma findMedia_append_none (db : MediaDB) (r : MediaRec) (u : Nat) (m : String)
    (h : findMedia db u m = none) :
    findMedia (db ++ [r]) u m =
      if (r.user_id == u && r.media_id == m) = true then some r else none := by
  rw [findMedia] at h ⊢
  rw [List.find?_append, h]
  by_cases hk : (r.user_id == u && r.media_id == m) = true
  · simp [List.find?_cons, hk]
  · simp only [Bool.not_eq_true] at hk
    simp [List.find?_cons, hk]

lemma findMedia_key (db : MediaDB) (u : Nat) (m : String) (r : MediaRec)
    (h : findMedia db u m = some r) : (r.user_id == u && r.media_id == m) = true := by
  rw [findMedia] at h
  simpa using List.find?_some h

lemma find?_map_key (f : MediaRec → MediaRec)
    (hf : ∀ r, (f r).user_id = r.user_id ∧ (f r).media_id = r.media_id)
    (db : MediaDB) (u : Nat) (m : String) :
    findMedia (db.map f) u m = (findMedia db u m).map f := by
  induction db with
  | nil => rfl
  | cons r rest ih =>
      rw [List.map_cons, findMedia_cons, findMedia_cons, (hf r).1, (hf r).2]
      by_cases hk : (r.user_id == u && r.media_id == m) = true
      · rw [if_pos hk, if_pos hk]
        rfl
      · rw [if_neg hk, if_neg hk]
        exact ih

lemma updateMediaToHD_eq_map (db : MediaDB) (u : Nat) (m : String) (p : Option String) :
    updateMediaToHD true db u m p =
      db.map (fun r =>
        if r.user_id == u && r.media_id == m then
          { r with is_hd := true,
                   file_path := if jsTruthyStr p then p else r.file_path }
        else r) := by
  rw [updateMediaToHD]
  simp

lemma findMedia_updateMediaToHD (db : MediaDB) (u : Nat) (m : String) (p : Option String)
    (u2 : Nat) (m2 : String) :
    findMedia (updateMediaToHD true db u m p) u2 m2 =
      (findMedia db u2 m2).map (fun r =>
        if r.user_id == u && r.media_id == m then
          { r with is_hd := true,
                   file_path := if jsTruthyStr p then p else r.file_path }
        else r) := by
  rw [updateMediaToHD_eq_map]
  refine find?_map_key _ (fun r => ?_) db u2 m2
  by_cases hk : (r.user_id == u && r.media_id == m) = true
  · simp [hk]
  · simp only [Bool.not_eq_true] at hk
    simp [hk]

lemma isHdRecorded_true_iff (db : MediaDB) (u : Nat) (m : String) :
    isHdRecorded db u m = true ↔
      ∃ r, findMedia db u m = some r ∧ r.is_hd = true := by
  rw [isHdRecorded]
  cases h : findMedia db u m <;> simp

lemma isHdRecorded_saveMedia_mono (dbE : Bool) (db : MediaDB) (u : Nat) (m : String)
    (hd : Bool) (p : Option String) (u2 : Nat) (m2 : String)
    (h : isHdRecorded db u2 m2 = true) :
    isHdRecorded (saveMedia dbE db u m hd p) u2 m2 = true := by
  rw [saveMedia]
  cases dbE with
  | false => simpa using h
  | true =>
      simp only [Bool.not_true, Bool.false_eq_true, if_false]
      cases hfm : findMedia db u m with
      | some r => exact h
      | none =>
          obtain ⟨r, hr, hhd⟩ := (isHdRecorded_true_iff db u2 m2).1 h
          exact (isHdRecorded_true_iff _ u2 m2).2
            ⟨r, findMedia_append_some db _ u2 m2 r hr, hhd⟩

lemma isHdRecorded_updateMediaToHD_mono (dbE : Bool) (db : MediaDB) (u : Nat)
    (m : String) (p : Option String) (u2 : Nat) (m2 : String)
    (h : isHdRecorded db u2 m2 = true) :
    isHdRecorded (updateMediaToHD dbE db u m p) u2 m2 = true := by
  cases dbE with
  | false => simpa [updateMediaToHD] using h
  | true =>
      obtain ⟨r, hr, hhd⟩ := (isHdRecorded_true_iff db u2 m2).1 h
      rw [isHdRecorded_true_iff, findMedia_updateMediaToHD, hr]
      refine ⟨_, rfl, ?_⟩
      by_cases hk : (r.user_id == u && r.media_id == m) = true
      · simp [hk]
      · simp only [Bool.not_eq_true] at hk
        simp [hk, hhd]

lemma isHdRecorded_updateMediaToHD_target (db : MediaDB) (u : Nat) (m : String)
    (p : Option String) (r : MediaRec) (h : findMedia db u m = some r) :
    isHdRecorded (updateMediaToHD true db u m p) u m = true := by
  have hk := findMedia_key db u m r h
  rw [isHdRecorded_true_iff, findMedia_updateMediaToHD, h]
  refine ⟨_, rfl, ?_⟩
  simp [hk]

lemma isHdRecorded_saveMediaWithTracking_mono (dbE : Bool) (db : MediaDB)
    (uid : Option Nat) (m : String) (hd : Bool) (p : String) (w : Bool)
    (u2 : Nat) (m2 : String) (h : isHdRecorded db u2 m2 = true) :
    isHdRecorded (saveMediaWithTracking dbE db uid m hd p w) u2 m2 = true := by
  rw [saveMediaWithTracking]
  by_cases hg : (!dbE || !uidTruthy uid) = true
  · rw [if_pos hg]
    exact h
  · rw [if_neg hg]
    by_cases hex : statusExists (getMediaStatus dbE db (uid.getD 0) m) = true
    · rw [if_pos hex]
      cases hd with
      | true =>
          simp only [if_true]
          exact isHdRecorded_updateMediaToHD_mono dbE db _ m _ u2 m2 h
      | false => simpa using h
    · rw [if_neg hex]
      exact isHdRecorded_saveMedia_mono dbE db _ m hd _ u2 m2 h

lemma isHdRecorded_applyMediaOps_mono (dbE : Bool) (ops : List MediaOp) :
    ∀ (db : MediaDB) (u : Nat) (m : String), isHdRecorded db u m = true →
      isHdRecorded (applyMediaOps dbE db ops) u m = true := by
  induction ops with
  | nil => intro db u m h; exact h
  | cons op rest ih =>
      intro db u m h
      rw [applyMediaOps, List.foldl_cons]
      refine ih _ u m ?_
      cases op with
      | save a b c d => exact isHdRecorded_saveMedia_mono dbE db a b c d u m h
      | updateHD a b c => exact isHdRecorded_updateMediaToHD_mono dbE db a b c u m h
      | saveTracking a b c d e =>
          exact isHdRecorded_saveMediaWithTracking_mono dbE db a b c d e u m h

/-- C3: the `is_hd` flag of a persisted media record is monotone: once
true it stays true across every sequence of store operations the core
performs (`saveMedia`, `updateMediaToHD`, `saveMediaWithTracking`);
when a record already exists and the current attempt did not produce
HD (a failed upgrade), `saveMediaWithTracking` leaves the store
untouched; and `updateMediaToHD` only ever sets the flag to true —
it raises the targeted existing record's flag to true and never
lowers any record's flag. -/
theorem c3_quality_monotone :
    (∀ (dbE : Bool) (db : MediaDB) (ops : List MediaOp) (u : Nat) (m : String),
      isHdRecorded db u m = true →
      isHdRecorded (applyMediaOps dbE db ops) u m = true) ∧
    (∀ (dbE : Bool) (db : MediaDB) (uid : Nat) (m : String) (p : String) (w : Bool),
      statusExists (getMediaStatus dbE db uid m) = true →
      saveMediaWithTracking dbE db (some uid) m false p w = db) ∧
    (∀ (db : MediaDB) (u : Nat) (m : String) (p : Option String) (r : MediaRec),
      findMedia db u m = some r →
      isHdRecorded (updateMediaToHD true db u m p) u m = true) ∧
    (∀ (dbE : Bool) (db : MediaDB) (u : Nat) (m : String) (p : Option String)
       (u2 : Nat) (m2 : String), isHdRecorded db u2 m2 = true →
      isHdRecorded (updateMediaToHD dbE db u m p) u2 m2 = true) := by
  refine ⟨fun dbE db ops u m h => isHdRecorded_applyMediaOps_mono dbE ops db u m h,
    fun dbE db uid m p w h => ?_,
    fun db u m p r h => isHdRecorded_updateMediaToHD_target db u m p r h,
    fun dbE db u m p u2 m2 h => isHdRecorded_updateMediaToHD_mono dbE db u m p u2 m2 h⟩
  rw [saveMediaWithTracking]
  by_cases hg : (!dbE || !uidTruthy (some uid)) = true
  · rw [if_pos hg]
  · rw [if_neg hg]
    rw [show (some uid).getD 0 = uid from rfl, if_pos h]
    simp

/-- Witness for C3 at concrete inputs: an HD record survives a
`saveMedia`, a failed-upgrade `saveMediaWithTracking`, and an
`updateMediaToHD` aimed at another record. -/
theorem c3_quality_monotone_witness :
    isHdRecorded
      (applyMediaOps true [{ user_id := 1, media_id := "m", is_hd := true,
                             file_path := none }]
        [.save 1 "m" false (some "p"), .saveTracking (some 1) "m" false "p" true,
         .updateHD 2 "x" none])
      1 "m" = true ∧
    saveMediaWithTracking true
      [{ user_id := 1, media_id := "m", is_hd := false, file_path := none }]
      (some 1) "m" false "p" true
      = [{ user_id := 1, media_id := "m", is_hd := false, file_path := none }] ∧
    isHdRecorded
      (updateMediaToHD true
        [{ user_id := 1, media_id := "m", is_hd := false, file_path := none }]
        1 "m" (some "p"))
      1 "m" = true :=
  ⟨c3_quality_monotone.1 true _ _ 1 "m" (by decide),
   c3_quality_monotone.2.1 true _ 1 "m" "p" true (by decide),
   c3_quality_monotone.2.2.1 _ 1 "m" (some "p")
     { user_id := 1, media_id := "m", is_hd := false, file_path := none }
     (by decide)⟩

/-! ### Per-item sync lemmas -/

lemma processAlbumItem_fresh (env : ItemEnv) (db : MediaDB) (uid : Nat)
    (pid purl path : String) (q : Bool) (huid : uid ≠ 0)
    (h : findMedia db uid pid = none) (hdl : env.downloadOk = true) :
    processAlbumItem true (some uid) env db pid purl path q =
      (db ++ [{ user_id := uid, media_id := pid,
                is_hd := q && jsTruthyStr env.hdLink, file_path := some path }],
       .savedItem,
       [if q && jsTruthyStr env.hdLink then env.hdLink.getD purl else purl]) := by
  have huidT : uidTruthy (some uid) = true := by simp [uidTruthy, huid]
  cases q with
  | false =>
      simp [processAlbumItem, checkMediaSkip, getMediaStatus, statusExists,
        huidT, h, hdl, saveMediaWithTracking, saveMedia, attemptHDFetch]
  | true =>
      cases hl : jsTruthyStr env.hdLink with
      | false =>
          simp [processAlbumItem, checkMediaSkip, getMediaStatus, statusExists,
            huidT, h, hdl, hl, saveMediaWithTracking, saveMedia, attemptHDFetch,
            show jsTruthyStr (none : Option String) = false from rfl]
      | true =>
          simp [processAlbumItem, checkMediaSkip, getMediaStatus, statusExists,
            huidT, h, hdl, hl, saveMediaWithTracking, saveMedia, attemptHDFetch]

lemma processAlbumItem_existing (env : ItemEnv) (db : MediaDB) (uid : Nat)
    (pid purl path : String) (q : Bool) (r : MediaRec) (huid : uid ≠ 0)
    (h : findMedia db uid pid = some r)
    (hr : r.is_hd = (q && jsTruthyStr env.hdLink)) :
    processAlbumItem true (some uid) env db pid purl path q
      = (db, .skippedItem, []) := by
  have huidT : uidTruthy (some uid) = true := by simp [uidTruthy, huid]
  cases q with
  | false =>
      simp only [Bool.false_and] at hr
      simp [processAlbumItem, checkMediaSkip, getMediaStatus, statusExists,
        statusIsHd, huidT, h, hr]
  | true =>
      cases hl : jsTruthyStr env.hdLink with
      | true =>
          rw [hl] at hr
          simp only [Bool.and_true] at hr
          simp [processAlbumItem, checkMediaSkip, getMediaStatus, statusExists,
            statusIsHd, huidT, h, hr, hl]
      | false =>
          rw [hl] at hr
          simp only [Bool.and_false] at hr
          simp [processAlbumItem, checkMediaSkip, getMediaStatus, statusExists,
            statusIsHd, huidT, h, hr, hl, attemptHDFetch]


lemma processWallItem_fresh (env : ItemEnv) (db : MediaDB) (uid : Nat)
    (item : MediaItem) (path : String) (q : Bool) (huid : uid ≠ 0)
    (h : findMedia db uid item.id = none) (hdl : env.downloadOk = true) :
    processWallItem true (some uid) env db item path true q =
      (db ++ [{ user_id := uid, media_id := item.id,
                is_hd := if item.mtype == MEDIA_TYPE_VIDEO then true
                         else q && (item.mtype == MEDIA_TYPE_PHOTO)
                                && jsTruthyStr env.hdLink,
                file_path := some path }],
       .savedItem,
       [if q && (item.mtype == MEDIA_TYPE_PHOTO) && jsTruthyStr env.hdLink
        then env.hdLink.getD item.url else item.url]) := by
  have huidT : uidTruthy (some uid) = true := by simp [uidTruthy, huid]
  by_cases hp : (item.mtype == MEDIA_TYPE_PHOTO) = true
  · have hv : (item.mtype == MEDIA_TYPE_VIDEO) = false := by
      simp only [MEDIA_TYPE_PHOTO, beq_iff_eq] at hp
      simp [MEDIA_TYPE_VIDEO, hp]
    cases q with
    | false =>
        simp [processWallItem, getMediaStatus, statusExists, statusIsHd,
          huidT, h, hdl, hp, hv, saveMedia]
    | true =>
        cases hl : jsTruthyStr env.hdLink with
        | false =>
            simp [processWallItem, getMediaStatus, statusExists, statusIsHd,
              huidT, h, hdl, hp, hv, hl, saveMedia]
        | true =>
            simp [processWallItem, getMediaStatus, statusExists, statusIsHd,
              huidT, h, hdl, hp, hv, hl, saveMedia]
  · have hp2 : (item.mtype == MEDIA_TYPE_PHOTO) = false := by
      simpa using hp
    by_cases hv : (item.mtype == MEDIA_TYPE_VIDEO) = true
    · simp [processWallItem, getMediaStatus, statusExists, statusIsHd,
        huidT, h, hdl, hp2, hv, saveMedia]
    · have hv2 : (item.mtype == MEDIA_TYPE_VIDEO) = false := by
        simpa using hv
      simp [processWallItem, getMediaStatus, statusExists, statusIsHd,
        huidT, h, hdl, hp2, hv2, saveMedia]

lemma processWallItem_existing (env : ItemEnv) (db : MediaDB) (uid : Nat)
    (item : MediaItem) (path : String) (q : Bool) (r : MediaRec) (huid : uid ≠ 0)
    (h : findMedia db uid item.id = some r)
    (hr : r.is_hd = (if item.mtype == MEDIA_TYPE_VIDEO then true
                     else q && (item.mtype == MEDIA_TYPE_PHOTO)
                            && jsTruthyStr env.hdLink)) :
    processWallItem true (some uid) env db item path true q
      = (db, .skippedItem, []) := by
  have huidT : uidTruthy (some uid) = true := by simp [uidTruthy, huid]
  by_cases hp : (item.mtype == MEDIA_TYPE_PHOTO) = true
  · have hv : (item.mtype == MEDIA_TYPE_VIDEO) = false := by
      simp only [MEDIA_TYPE_PHOTO, beq_iff_eq] at hp
      simp [MEDIA_TYPE_VIDEO, hp]
    rw [hv] at hr
    simp only [Bool.false_eq_true, if_false, hp, Bool.and_true] at hr
    cases q with
    | false =>
        simp only [Bool.false_and] at hr
        simp [processWallItem, getMediaStatus, statusExists, statusIsHd,
          huidT, h, hp, hv, hr]
    | true =>
        cases hl : jsTruthyStr env.hdLink with
        | true =>
            rw [hl] at hr
            simp only [Bool.true_and] at hr
            simp [processWallItem, getMediaStatus, statusExists, statusIsHd,
              huidT, h, hp, hv, hr, hl]
        | false =>
            rw [hl] at hr
            simp only [Bool.and_false] at hr
            simp [processWallItem, getMediaStatus, statusExists, statusIsHd,
              huidT, h, hp, hv, hr, hl]
  · have hp2 : (item.mtype == MEDIA_TYPE_PHOTO) = false := by
      simpa using hp
    simp [processWallItem, getMediaStatus, statusExists, statusIsHd,
      huidT, h, hp2]

/-- C1: processing one media item of a sync run (album path
`downloadAlbumPhoto`, wall path `downloadWallMedia`) twice with
identical inputs — the same deterministic HD-fetch environment and a
succeeding download — downloads the item at most once: the first run
(item not yet in the store) downloads exactly once, reports it saved
and records it in the persistent store; the second run attempts no
download, leaves the store unchanged, and reports the item skipped. -/
theorem c1_sync_idempotent :
    (∀ (env : ItemEnv) (db db1 : MediaDB) (uid : Nat) (pid purl path : String)
       (q : Bool) (o1 : ItemOutcome) (dl1 : List String),
      uid ≠ 0 → findMedia db uid pid = none → env.downloadOk = true →
      processAlbumItem true (some uid) env db pid purl path q = (db1, o1, dl1) →
      o1 = .savedItem ∧ dl1.length = 1 ∧
        (findMedia db1 uid pid).isSome = true ∧
        processAlbumItem true (some uid) env db1 pid purl path q
          = (db1, .skippedItem, [])) ∧
    (∀ (env : ItemEnv) (db db1 : MediaDB) (uid : Nat) (item : MediaItem)
       (path : String) (q : Bool) (o1 : ItemOutcome) (dl1 : List String),
      uid ≠ 0 → findMedia db uid item.id = none → env.downloadOk = true →
      processWallItem true (some uid) env db item path true q = (db1, o1, dl1) →
      o1 = .savedItem ∧ dl1.length = 1 ∧
        (findMedia db1 uid item.id).isSome = true ∧
        processWallItem true (some uid) env db1 item path true q
          = (db1, .skippedItem, [])) := by
  constructor
  · intro env db db1 uid pid purl path q o1 dl1 huid h hdl hrun
    rw [processAlbumItem_fresh env db uid pid purl path q huid h hdl] at hrun
    rw [Prod.mk.injEq, Prod.mk.injEq] at hrun
    obtain ⟨h1, h2, h3⟩ := hrun
    subst h1
    subst h2
    subst h3
    have hfind : findMedia
        (db ++
          [{ user_id := uid, media_id := pid,
             is_hd := q && jsTruthyStr env.hdLink, file_path := some path }])
        uid pid
        = some { user_id := uid, media_id := pid,
                 is_hd := q && jsTruthyStr env.hdLink, file_path := some path } := by
      rw [findMedia_append_none db _ uid pid h]
      simp
    refine ⟨rfl, rfl, ?_, ?_⟩
    · rw [hfind]
      rfl
    · exact processAlbumItem_existing env _ uid pid purl path q _ huid hfind rfl
  · intro env db db1 uid item path q o1 dl1 huid h hdl hrun
    rw [processWallItem_fresh env db uid item path q huid h hdl] at hrun
    rw [Prod.mk.injEq, Prod.mk.injEq] at hrun
    obtain ⟨h1, h2, h3⟩ := hrun
    subst h1
    subst h2
    subst h3
    have hfind : findMedia
        (db ++
          [{ user_id := uid, media_id := item.id,
             is_hd := if item.mtype == MEDIA_TYPE_VIDEO then true
                      else q && (item.mtype == MEDIA_TYPE_PHOTO)
                             && jsTruthyStr env.hdLink,
             file_path := some path }])
        uid item.id
        = some { user_id := uid, media_id := item.id,
                 is_hd := if item.mtype == MEDIA_TYPE_VIDEO then true
                          else q && (item.mtype == MEDIA_TYPE_PHOTO)
                                 && jsTruthyStr env.hdLink,
                 file_path := some path } := by
      rw [findMedia_append_none db _ uid item.id h]
      simp
    refine ⟨rfl, rfl, ?_, ?_⟩
    · rw [hfind]
      rfl
    · exact processWallItem_existing env _ uid item path q _ huid hfind rfl

/-- Witness for C1 at concrete inputs: re-processing an
already-recorded album photo and an already-recorded wall video skips
them, attempts no download and leaves the store unchanged. -/
theorem c1_sync_idempotent_witness :
    processAlbumItem true (some 1) { hdLink := none, downloadOk := true }
      [{ user_id := 1, media_id := "m", is_hd := false, file_path := some "p" }]
      "m" "u" "p" false
      = ([{ user_id := 1, media_id := "m", is_hd := false, file_path := some "p" }],
         .skippedItem, []) ∧
    processWallItem true (some 1) { hdLink := none, downloadOk := true }
      [{ user_id := 1, media_id := "m", is_hd := true, file_path := some "p" }]
      { mtype := MEDIA_TYPE_VIDEO, id := "m", url := "u" } "p" true false
      = ([{ user_id := 1, media_id := "m", is_hd := true, file_path := some "p" }],
         .skippedItem, []) :=
  ⟨(c1_sync_idempotent.1 { hdLink := none, downloadOk := true } [] _ 1 "m" "u" "p"
      false .savedItem ["u"] (by decide) (by decide) rfl (by decide)).2.2.2,
   (c1_sync_idempotent.2 { hdLink := none, downloadOk := true } [] _ 1
      { mtype := MEDIA_TYPE_VIDEO, id := "m", url := "u" } "p" false .savedItem
      ["u"] (by decide) (by decide) rfl (by decide)).2.2.2⟩

end FBMD
